import Mathlib

/-!
# The meta server of eraft: propose / apply pipeline

Shallow embedding of `pkg/metaserver/meta_server.go`.

* Go byte slices are lists of naturals; a slice that the code compares with
  `nil` is an `Option` of such a list (`none` is the nil slice).
* `int`, `int64` and the conversions between them are `Int` (64-bit platform,
  the conversions are the identity).
* A pointer that the code dereferences without a check is an `Option`; the
  dereference of `none` is a panic.
* Go maps are association lists read with `List.lookup`.
* The channels stored in `notifyChans` are references into a heap of
  capacity-1 buffers (`chans`), so that a handler keeps the channel it obtained
  even after the map entry is deleted.
* The Raft core, the key-value engine, the topology state machine, the
  protobuf codecs and `encoding/gob` are collaborators outside
  `meta_server.go`; every definition takes them as the record `Env`.
* `common.GenGoogleUUID()` is a fresh draw at every call; the value drawn is
  an explicit argument `uuid` of the apply step.
* The mutex sections and channel operations of the two goroutines are the
  atomic steps of the model; the scheduler's choices (which `select` case
  fires) are explicit Boolean arguments.
-/

namespace Eraft

/-- A non-nil Go byte slice. -/
abbrev Bytes := List Nat

/-- A Go byte slice that may be nil. -/
abbrev Blob := Option Bytes

/-- The Go type `map[string]string` of `confStm`; `none` is the nil map. -/
abbrev ConfMap := Option (List (String × String))

/-- The values of `pb.ErrCode` that `meta_server.go` uses. -/
inductive ErrCode where
  | NO_ERR
  | WRONG_LEADER_ERR
  | RPC_CALL_TIMEOUT_ERR
  | APPLY_JOIN_TODO_TO_STM_ERR
  | APPLY_LEAVE_TODO_TO_STM_ERR
  | APPLY_QUERY_TOPO_CONF_ERR
  | PUT_BUCKET_TO_ENG_ERR
  | DEL_BUCKET_FROM_ENG_ERR
  | PUT_OBJECT_META_TO_ENG_ERR
  deriving DecidableEq, Repr

/-- The values of `pb.ConfigServerGroupMetaOpType`; `OP_UNRECOGNIZED` stands
for any other number carried by the enum field. -/
inductive OpType where
  | OP_SERVER_GROUP_JOIN
  | OP_SERVER_GROUP_LEAVE
  | OP_SERVER_GROUP_QUERY
  | OP_OSS_BUCKET_ADD
  | OP_OSS_BUCKET_DEL
  | OP_OSS_BUCKET_LIST
  | OP_OSS_OBJECT_PUT
  | OP_OSS_OBJECT_GET
  | OP_OSS_OBJECT_LIST
  | OP_UNRECOGNIZED
  deriving DecidableEq, Repr

/-- The message `pb.Bucket`. -/
structure Bucket where
  BucketId : String
  BucketName : String
  deriving DecidableEq, Repr

/-- The message `pb.Object`; the block metadata is copied verbatim by the code
and kept as raw payloads. -/
structure Object where
  ObjectId : String
  ObjectName : String
  FromBucketId : String
  ObjectBlocksMeta : List Bytes
  deriving DecidableEq, Repr

/-- The message `pb.BucketOpRequest` (fields read by the apply loop). -/
structure BucketOpRequest where
  BucketName : String
  BucketId : String
  Object : Option Object
  deriving DecidableEq, Repr

/-- The message `pb.ServerGroupMetaConfigRequest`. -/
structure ServerGroupMetaConfigRequest where
  OpType : OpType
  ServerGroups : List (Int × String)
  Gids : List Int
  ConfigVersion : Int
  BucketOpReq : Option BucketOpRequest
  deriving DecidableEq, Repr

/-- The message `pb.ServerGroupMetas`. -/
structure ServerGroupMetas where
  ConfigVersion : Int
  ServerGroups : List (Int × String)
  Slots : List Int
  deriving DecidableEq, Repr

/-- The message `pb.BucketOpResponse`. -/
structure BucketOpResponse where
  Buckets : List Bucket
  Objects : List Object
  deriving DecidableEq, Repr

/-- The message `pb.ServerGroupMetaConfigResponse`. -/
structure ServerGroupMetaConfigResponse where
  ErrCode : ErrCode
  LeaderId : Int
  ServerGroupMetas : Option ServerGroupMetas
  BucketOpRes : Option BucketOpResponse
  deriving DecidableEq, Repr

/-- The message `pb.ApplyMsg`. -/
structure ApplyMsg where
  CommandValid : Bool
  Command : Bytes
  CommandIndex : Int
  SnapshotValid : Bool
  Snapshot : Blob
  SnapshotTerm : Int
  SnapshotIndex : Int
  deriving DecidableEq, Repr

/-- The value returned by `TopoConfigSTM.Query` (fields read by the apply loop). -/
structure TopoConfig where
  Version : Int
  ServerGroups : List (Int × List String)
  Slots : List Int
  deriving DecidableEq, Repr

/-- The collaborators of `meta_server.go` that live outside it: the Raft core
(`s.rf`), the key-value engine (`s.metaEng`), the topology state machine
(`s.stm`, which is built over the same engine), the protobuf codecs and
`encoding/gob`. Each one is a function of its arguments and of the state it
owns; `Join` and `Leave` may also write the engine, `Query` and the three
getters of the Raft core only read. An error result is `some message`, `none`
is Go's `nil` error. `zeroErrCode` is the zero value of the enum `pb.ErrCode`,
the code of a freshly allocated response. `gobDecode` gives the map that
`Decode` leaves in its target and whether it returned an error. -/
structure Env (Raft Store Topo : Type) where
  zeroErrCode : ErrCode
  Propose : Raft → Bytes → (Int × Int × Bool) × Raft
  GetLeaderId : Raft → Int
  GetLogCount : Raft → Int
  Snapshot : Raft → Int → Blob → Raft
  CondInstallSnapshot : Raft → Int → Int → Blob → Bool × Raft
  ReadSnapshot : Raft → Blob
  Put : Store → Bytes → Bytes → Option String × Store
  Del : Store → Bytes → Option String × Store
  GetPrefixRangeKvs : Store → Bytes → List Bytes × List Bytes × Option String
  Join : Topo → Store → List (Int × List String) → Option String × Topo × Store
  Leave : Topo → Store → List Int → Option String × Topo × Store
  Query : Topo → Store → Int → TopoConfig × Option String
  EncodeServerGroupMetaRequest : ServerGroupMetaConfigRequest → Bytes
  DecodeServerGroupMetaRequest : Bytes → ServerGroupMetaConfigRequest
  EncodeBucketKey : String → Bytes
  EncodeBucket : Bucket → Bytes
  DecodeBucket : Bytes → Bucket
  EncodeObjectKey : String → Bytes
  EncodeObject : Object → Bytes
  DecodeObject : Bytes → Object
  BUCKET_META_PREFIX : Bytes
  OBJECT_META_PREFIX : Bytes
  gobEncode : ConfMap → Blob
  gobDecode : Bytes → ConfMap × Bool

/-- An unbuffered Go channel as far as the apply loop observes it: whether
`close` has been called on it. -/
structure SignalChan where
  closed : Bool
  deriving DecidableEq, Repr

/-- The struct `MetaServer`. `chans` is the heap of the capacity-1 channels
made by `getRespNotifyChan`: entry `c` is the buffer of channel `c`, `none`
when it is empty. `notifyChans` maps a log index to such a channel. -/
structure MetaServer (Raft Store Topo : Type) where
  rf : Raft
  applyCh : SignalChan
  notifyChans : List (Int × Nat)
  chans : List (Option ServerGroupMetaConfigResponse)
  metaEng : Store
  stm : Topo
  confStm : ConfMap
  stopApplyCh : SignalChan
  lastApplied : Int
  deriving DecidableEq

variable {Raft Store Topo : Type}

/-- The Go statement `m[k] = v` on an association list. -/
def mapSet (m : List (Int × Nat)) (k : Int) (v : Nat) : List (Int × Nat) :=
  (k, v) :: m.filter (fun e => e.1 != k)

/-- The Go statement `delete(m, k)` on an association list. -/
def mapDelete (m : List (Int × Nat)) (k : Int) : List (Int × Nat) :=
  m.filter (fun e => e.1 != k)

/-- The send `ch <- resp` on a capacity-1 channel: `some` of the new heap when
the buffer is empty, `none` when the send has to block. -/
def chanSend (chans : List (Option ServerGroupMetaConfigResponse)) (ch : Nat)
    (resp : ServerGroupMetaConfigResponse) :
    Option (List (Option ServerGroupMetaConfigResponse)) :=
  match chans[ch]? with
  | some none => some (chans.set ch (some resp))
  | _ => none

/-- The receive `<-ch` on a capacity-1 channel: the buffered value and the heap
with the buffer emptied, `none` when the receive has to block. -/
def chanRecv (chans : List (Option ServerGroupMetaConfigResponse)) (ch : Nat) :
    Option (ServerGroupMetaConfigResponse × List (Option ServerGroupMetaConfigResponse)) :=
  match chans[ch]? with
  | some (some res) => some (res, chans.set ch none)
  | _ => none

/-- The method `getRespNotifyChan`: make a capacity-1 channel under `logIndex`
when the key is absent, and return the channel stored under the key. -/
def getRespNotifyChan (s : MetaServer Raft Store Topo) (logIndex : Int) :
    Nat × MetaServer Raft Store Topo :=
  match s.notifyChans.lookup logIndex with
  | some ch => (ch, s)
  | none =>
    let ch := s.chans.length
    (ch, { s with chans := s.chans ++ [none], notifyChans := mapSet s.notifyChans logIndex ch })

/-- The method `restoreSnapshot`: nothing on nil data, otherwise `confStm`
becomes whatever the gob decoder left in the local map (a decode error is only
logged). -/
def restoreSnapshot (E : Env Raft Store Topo) (s : MetaServer Raft Store Topo)
    (snapData : Blob) : MetaServer Raft Store Topo :=
  match snapData with
  | none => s
  | some b => { s with confStm := (E.gobDecode b).1 }

/-- The method `taskSnapshot`: gob-encode `confStm` and hand the bytes to the
Raft core's `Snapshot`. -/
def taskSnapshot (E : Env Raft Store Topo) (s : MetaServer Raft Store Topo)
    (index : Int) : MetaServer Raft Store Topo :=
  { s with rf := E.Snapshot s.rf index (E.gobEncode s.confStm) }

/-- The method `StopAppling`: `close(s.applyCh)`; closing a closed channel
panics. -/
def StopAppling (s : MetaServer Raft Store Topo) : Except String (MetaServer Raft Store Topo) :=
  if s.applyCh.closed then .error "close of closed channel"
  else .ok { s with applyCh := { closed := true } }

/-- The constructor `MakeMetaServer` once the Raft core, the metadata engine
and the topology state machine have been built: empty `notifyChans`, open
channels, and `restoreSnapshot` on the Raft core's last snapshot. -/
def MakeMetaServer (E : Env Raft Store Topo) (newRf : Raft) (metaStorage : Store)
    (stm : Topo) : MetaServer Raft Store Topo :=
  restoreSnapshot E
    { rf := newRf, applyCh := { closed := false }, notifyChans := [], chans := [],
      metaEng := metaStorage, stm := stm, confStm := none,
      stopApplyCh := { closed := false }, lastApplied := 0 }
    (E.ReadSnapshot newRf)

/-- Where a `ServerGroupMeta` call stands after its first section: it has
returned, or it holds the channel `ch` of `logIndex` and enters the `select`. -/
inductive SgmProgress where
  | returned (resp : ServerGroupMetaConfigResponse)
  | waiting (logIndex : Int) (ch : Nat)
  deriving DecidableEq, Repr

/-- The lines of `ServerGroupMeta` before `s.mu.Lock()`: encode the request,
propose it, and either return the wrong-leader response (`Sum.inl`) or go on
with the log index that `Propose` returned (`Sum.inr`). -/
def ServerGroupMeta_submit (E : Env Raft Store Topo) (s : MetaServer Raft Store Topo)
    (req : ServerGroupMetaConfigRequest) :
    (ServerGroupMetaConfigResponse ⊕ Int) × MetaServer Raft Store Topo :=
  let resp : ServerGroupMetaConfigResponse :=
    { ErrCode := E.zeroErrCode, LeaderId := 0, ServerGroupMetas := none, BucketOpRes := none }
  let reqByteSeq := E.EncodeServerGroupMetaRequest req
  let r := E.Propose s.rf reqByteSeq
  let logIndex := r.1.1
  let isLeader := r.1.2.2
  let s1 := { s with rf := r.2 }
  if !isLeader then
    (.inl { resp with ErrCode := .WRONG_LEADER_ERR, LeaderId := E.GetLeaderId s1.rf }, s1)
  else
    (.inr logIndex, s1)

/-- The mutex section of `ServerGroupMeta`:
`s.mu.Lock(); ch := s.getRespNotifyChan(logIndexInt64); s.mu.Unlock()`. -/
def ServerGroupMeta_register (s : MetaServer Raft Store Topo) (logIndex : Int) :
    Nat × MetaServer Raft Store Topo :=
  getRespNotifyChan s logIndex

/-- The first part of `ServerGroupMeta`, up to `s.mu.Unlock()`, when no other
goroutine runs between `Propose` and the mutex section: return the
wrong-leader response or obtain the notification channel of the log index. -/
def ServerGroupMeta_propose (E : Env Raft Store Topo) (s : MetaServer Raft Store Topo)
    (req : ServerGroupMetaConfigRequest) : SgmProgress × MetaServer Raft Store Topo :=
  match ServerGroupMeta_submit E s req with
  | (.inl resp, s1) => (.returned resp, s1)
  | (.inr logIndex, s1) =>
    let c := ServerGroupMeta_register s1 logIndex
    (.waiting logIndex c.1, c.2)

/-- The `select` of `ServerGroupMeta` on the channel `ch`. `timedOut` is the
scheduler's choice of the `time.After` case; otherwise the receive case fires
when a response is buffered, and the call is still blocked (`none`) when the
buffer is empty. -/
def ServerGroupMeta_select (E : Env Raft Store Topo) (s : MetaServer Raft Store Topo)
    (ch : Nat) (timedOut : Bool) :
    Option (ServerGroupMetaConfigResponse × MetaServer Raft Store Topo) :=
  let resp : ServerGroupMetaConfigResponse :=
    { ErrCode := E.zeroErrCode, LeaderId := 0, ServerGroupMetas := none, BucketOpRes := none }
  if timedOut then
    some ({ resp with ErrCode := .RPC_CALL_TIMEOUT_ERR }, s)
  else
    match chanRecv s.chans ch with
    | some (res, chans1) =>
      let resp1 := { resp with ServerGroupMetas := res.ServerGroupMetas }
      let resp2 := { resp1 with BucketOpRes := res.BucketOpRes }
      let resp3 := { resp2 with ErrCode := .NO_ERR }
      some (resp3, { s with chans := chans1 })
    | none => none

/-- The goroutine that `ServerGroupMeta` starts before returning:
`delete(s.notifyChans, logIndexInt64)` under the mutex. -/
def ServerGroupMeta_cleanup (s : MetaServer Raft Store Topo) (logIndex : Int) :
    MetaServer Raft Store Topo :=
  { s with notifyChans := mapDelete s.notifyChans logIndex }

/-- The method `ServerGroupMeta` run without another goroutine in between: the
response returned to the caller and the state once the cleanup goroutine has
run; `none` while the call is blocked in its `select`. -/
def ServerGroupMeta (E : Env Raft Store Topo) (s : MetaServer Raft Store Topo)
    (req : ServerGroupMetaConfigRequest) (timedOut : Bool) :
    Option (ServerGroupMetaConfigResponse × MetaServer Raft Store Topo) :=
  match ServerGroupMeta_propose E s req with
  | (.returned resp, s1) => some (resp, s1)
  | (.waiting logIndex ch, s1) =>
    match ServerGroupMeta_select E s1 ch timedOut with
    | some (resp, s2) => some (resp, ServerGroupMeta_cleanup s2 logIndex)
    | none => none

/-- Go's `strings.Split(s, sep)` for a one-byte separator: the pieces of `s`
between the occurrences of `sep` (one empty piece for the empty string). -/
def stringsSplit (s : String) (sep : Char) : List String :=
  (s.toList.splitOn sep).map String.mk

/-- The `switch req.OpType` of `ApplingToSTM`: the response built and the state
after the state-machine call, or the panic message. `uuid` is the value that
`common.GenGoogleUUID()` returns in the two branches that call it. -/
def applyOp (E : Env Raft Store Topo) (uuid : String) (s : MetaServer Raft Store Topo)
    (req : ServerGroupMetaConfigRequest) :
    Except String (ServerGroupMetaConfigResponse × MetaServer Raft Store Topo) :=
  let resp : ServerGroupMetaConfigResponse :=
    { ErrCode := E.zeroErrCode, LeaderId := 0, ServerGroupMetas := none, BucketOpRes := none }
  match req.OpType with
  | .OP_SERVER_GROUP_JOIN =>
    let serverGroups := req.ServerGroups.map (fun e => (e.1, stringsSplit e.2 ','))
    let r := E.Join s.stm s.metaEng serverGroups
    let s1 := { s with stm := r.2.1, metaEng := r.2.2 }
    if r.1.isSome then .ok ({ resp with ErrCode := .APPLY_JOIN_TODO_TO_STM_ERR }, s1)
    else .ok (resp, s1)
  | .OP_SERVER_GROUP_LEAVE =>
    let gids := req.Gids
    let r := E.Leave s.stm s.metaEng gids
    let s1 := { s with stm := r.2.1, metaEng := r.2.2 }
    if r.1.isSome then .ok ({ resp with ErrCode := .APPLY_LEAVE_TODO_TO_STM_ERR }, s1)
    else .ok (resp, s1)
  | .OP_SERVER_GROUP_QUERY =>
    let r := E.Query s.stm s.metaEng req.ConfigVersion
    let topoConf := r.1
    let resp1 := if r.2.isSome then { resp with ErrCode := .APPLY_QUERY_TOPO_CONF_ERR } else resp
    let metas : ServerGroupMetas :=
      { ConfigVersion := topoConf.Version,
        ServerGroups := topoConf.ServerGroups.map (fun e => (e.1, ",".intercalate e.2)),
        Slots := topoConf.Slots }
    .ok ({ resp1 with ServerGroupMetas := some metas }, s)
  | .OP_OSS_BUCKET_ADD =>
    let bucketId := uuid
    match req.BucketOpReq with
    | none => .error "nil pointer dereference: req.BucketOpReq"
    | some b =>
      let bucket : Bucket := { BucketId := bucketId, BucketName := b.BucketName }
      let bucketEncodeKey := E.EncodeBucketKey bucketId
      let bucketEncodeVal := E.EncodeBucket bucket
      let r := E.Put s.metaEng bucketEncodeKey bucketEncodeVal
      let resp1 := if r.1.isSome then { resp with ErrCode := .PUT_BUCKET_TO_ENG_ERR } else resp
      .ok ({ resp1 with ErrCode := .NO_ERR }, { s with metaEng := r.2 })
  | .OP_OSS_BUCKET_DEL =>
    match req.BucketOpReq with
    | none => .error "nil pointer dereference: req.BucketOpReq"
    | some b =>
      let bucketEncodeKey := E.EncodeBucketKey b.BucketId
      let r := E.Del s.metaEng bucketEncodeKey
      let resp1 := if r.1.isSome then { resp with ErrCode := .DEL_BUCKET_FROM_ENG_ERR } else resp
      .ok ({ resp1 with ErrCode := .NO_ERR }, { s with metaEng := r.2 })
  | .OP_OSS_BUCKET_LIST =>
    let r := E.GetPrefixRangeKvs s.metaEng E.BUCKET_META_PREFIX
    match r.2.2 with
    | some err => .error err
    | none =>
      let res : BucketOpResponse := { Buckets := r.2.1.map E.DecodeBucket, Objects := [] }
      .ok ({ resp with BucketOpRes := some res, ErrCode := .NO_ERR }, s)
  | .OP_OSS_OBJECT_PUT =>
    let objectId := uuid
    match req.BucketOpReq with
    | none => .error "nil pointer dereference: req.BucketOpReq"
    | some b =>
      match b.Object with
      | none => .error "nil pointer dereference: req.BucketOpReq.Object"
      | some o =>
        let object : Object :=
          { ObjectId := o.ObjectId, ObjectName := o.ObjectName, FromBucketId := b.BucketId,
            ObjectBlocksMeta := o.ObjectBlocksMeta }
        let objEncodeKey := E.EncodeObjectKey objectId
        let objEncodeVal := E.EncodeObject object
        let r := E.Put s.metaEng objEncodeKey objEncodeVal
        let resp1 :=
          if r.1.isSome then { resp with ErrCode := .PUT_OBJECT_META_TO_ENG_ERR } else resp
        .ok ({ resp1 with ErrCode := .NO_ERR }, { s with metaEng := r.2 })
  | .OP_OSS_OBJECT_GET => .ok (resp, s)
  | .OP_OSS_OBJECT_LIST =>
    let r := E.GetPrefixRangeKvs s.metaEng E.OBJECT_META_PREFIX
    match r.2.2 with
    | some err => .error err
    | none =>
      let objs := r.2.1.map E.DecodeObject
      match req.BucketOpReq with
      | none =>
        if objs.isEmpty then
          .ok ({ resp with BucketOpRes := some { Buckets := [], Objects := [] },
                           ErrCode := .NO_ERR }, s)
        else .error "nil pointer dereference: req.BucketOpReq"
      | some b =>
        let res : BucketOpResponse :=
          { Buckets := [], Objects := objs.filter (fun o => o.FromBucketId == b.BucketId) }
        .ok ({ resp with BucketOpRes := some res, ErrCode := .NO_ERR }, s)
  | .OP_UNRECOGNIZED => .ok (resp, s)

/-- What one pass through the body of the `for` loop of `ApplingToSTM` ends in. -/
inductive LoopResult (σ : Type) where
  /-- The `case <-done` fired and the function returned. -/
  | exited (s : σ)
  /-- The pass completed; `sent` is the response put on a notification channel. -/
  | iterated (s : σ) (sent : Option ServerGroupMetaConfigResponse)
  /-- The pass is stuck in `ch <- resp` on a full channel. -/
  | blockedOnSend (s : σ) (resp : ServerGroupMetaConfigResponse)
  /-- No case of the `select` is ready. -/
  | idle (s : σ)
  /-- The goroutine panicked. -/
  | panicked (why : String)
  deriving DecidableEq

/-- The state a pass of the loop leaves behind, when it leaves one. -/
def LoopResult.state? {σ : Type} : LoopResult σ → Option σ
  | .exited s => some s
  | .iterated s _ => some s
  | .blockedOnSend s _ => some s
  | .idle s => some s
  | .panicked _ => none

/-- The response a pass of the loop built for a committed command. -/
def LoopResult.response? {σ : Type} : LoopResult σ → Option ServerGroupMetaConfigResponse
  | .iterated _ sent => sent
  | .blockedOnSend _ resp => some resp
  | _ => none

/-- The end of the command branch of `ApplingToSTM`: obtain the channel of
`logIndex` under the mutex and send the response on it. -/
def routeResponse (s : MetaServer Raft Store Topo) (logIndex : Int)
    (resp : ServerGroupMetaConfigResponse) : LoopResult (MetaServer Raft Store Topo) :=
  let c := getRespNotifyChan s logIndex
  match chanSend c.2.chans c.1 resp with
  | some chans1 => .iterated { c.2 with chans := chans1 } (some resp)
  | none => .blockedOnSend c.2 resp

/-- The branch `if appliedMsg.CommandValid` of `ApplingToSTM`. -/
def ApplingToSTM_command (E : Env Raft Store Topo) (uuid : String)
    (s : MetaServer Raft Store Topo) (appliedMsg : ApplyMsg) :
    LoopResult (MetaServer Raft Store Topo) :=
  let req := E.DecodeServerGroupMetaRequest appliedMsg.Command
  match applyOp E uuid s req with
  | .error why => .panicked why
  | .ok (resp, s1) =>
    let s2 := { s1 with lastApplied := appliedMsg.CommandIndex }
    let s3 := if E.GetLogCount s2.rf > 20 then taskSnapshot E s2 appliedMsg.CommandIndex else s2
    routeResponse s3 appliedMsg.CommandIndex resp

/-- The branch `else if appliedMsg.SnapshotValid` of `ApplingToSTM`. -/
def ApplingToSTM_snapshot (E : Env Raft Store Topo) (s : MetaServer Raft Store Topo)
    (appliedMsg : ApplyMsg) : MetaServer Raft Store Topo :=
  let r := E.CondInstallSnapshot s.rf appliedMsg.SnapshotTerm appliedMsg.SnapshotIndex
    appliedMsg.Snapshot
  let s1 := { s with rf := r.2 }
  if r.1 then
    { restoreSnapshot E s1 appliedMsg.Snapshot with lastApplied := appliedMsg.SnapshotIndex }
  else s1

/-- One pass through the `for` loop of `ApplingToSTM`. `incoming` is the message
a sender offers on `applyCh` (`none` when nobody is sending); the receive on a
closed `applyCh` yields the nil pointer. `pickDone` is the scheduler's choice
of `case <-done` when both cases are ready. -/
def ApplingToSTM_iter (E : Env Raft Store Topo) (uuid : String) (pickDone : Bool)
    (s : MetaServer Raft Store Topo) (incoming : Option ApplyMsg) :
    LoopResult (MetaServer Raft Store Topo) :=
  let doneReady := s.stopApplyCh.closed
  let received : Option (Option ApplyMsg) :=
    if s.applyCh.closed then some none else incoming.map some
  if doneReady && (pickDone || received.isNone) then .exited s
  else
    match received with
    | none => .idle s
    | some none => .panicked "nil pointer dereference: appliedMsg"
    | some (some appliedMsg) =>
      if appliedMsg.CommandValid then ApplingToSTM_command E uuid s appliedMsg
      else if appliedMsg.SnapshotValid then .iterated (ApplingToSTM_snapshot E s appliedMsg) none
      else .iterated s none

/-- The loop `ApplingToSTM` along a schedule: each entry gives the identifier
drawn, the scheduler's choice and the message offered for one pass. The run
ends at the first pass that does not complete, or idle when the schedule is
used up. -/
def ApplingToSTM (E : Env Raft Store Topo) :
    List (String × Bool × Option ApplyMsg) → MetaServer Raft Store Topo →
    LoopResult (MetaServer Raft Store Topo)
  | [], s => .idle s
  | (uuid, pickDone, incoming) :: rest, s =>
    match ApplingToSTM_iter E uuid pickDone s incoming with
    | .iterated s1 _ => ApplingToSTM E rest s1
    | r => r

/-! ## A concrete cluster node

The collaborators instantiated, so that the definitions above can be run on
explicit inputs. -/

/-- Modelled from the spec: the Raft core (`pkg/core/raft`, section 4.1), as far
as `meta_server.go` calls it. `log` holds the retained entries, the first one
at index `lastIncludedIndex + 1`. -/
structure RaftCore where
  isLeader : Bool
  leaderId : Int
  term : Int
  log : List Bytes
  lastIncludedIndex : Int
  commitIndex : Int
  snapshot : Blob
  deriving DecidableEq, Repr

/-- Modelled from the spec: `Propose` of the Raft core, "appends the command to
the local log if and only if this node is Leader; returns immediately";
"non-leader calls return isLeader=false with no side effect". -/
def RaftCore.Propose (rf : RaftCore) (cmd : Bytes) : (Int × Int × Bool) × RaftCore :=
  if rf.isLeader then
    ((rf.lastIncludedIndex + (rf.log.length + 1 : Nat), rf.term, true),
      { rf with log := rf.log ++ [cmd] })
  else ((-1, -1, false), rf)

/-- Modelled from the spec: `Snapshot(index, data)` of the Raft core, "truncates
the log prefix at index, records data as the new snapshot, discards
now-covered entries". -/
def RaftCore.Snapshot (rf : RaftCore) (index : Int) (data : Blob) : RaftCore :=
  if index ≤ rf.lastIncludedIndex then rf
  else
    { rf with log := rf.log.drop (index - rf.lastIncludedIndex).toNat,
              lastIncludedIndex := index, snapshot := data }

/-- Modelled from the spec: `CondInstallSnapshot(term, index, data)` of the Raft
core, which accepts a snapshot "only if it is not already stale relative to
locally committed state". -/
def RaftCore.CondInstallSnapshot (rf : RaftCore) (_term : Int) (index : Int) (data : Blob) :
    Bool × RaftCore :=
  if index ≤ rf.commitIndex then (false, rf)
  else
    (true, { rf with log := rf.log.drop (index - rf.lastIncludedIndex).toNat,
                     lastIncludedIndex := index, commitIndex := index, snapshot := data })

/-- Modelled from the spec: the key-value engine (`pkg/engine`, section 6),
"Put(key, value) → error, Get(key) → value, Del(key) → error,
GetPrefixRangeKvs(prefix) → (keys, values, error)". `failing` is a store whose
I/O fails. -/
structure KvEngine where
  kvs : List (Bytes × Bytes)
  failing : Bool
  deriving DecidableEq, Repr

/-- Modelled from the spec: `Put` of the key-value engine. -/
def KvEngine.Put (e : KvEngine) (k v : Bytes) : Option String × KvEngine :=
  if e.failing then (some "put: i/o failure", e)
  else (none, { e with kvs := (k, v) :: e.kvs.filter (fun kv => kv.1 != k) })

/-- Modelled from the spec: `Del` of the key-value engine. -/
def KvEngine.Del (e : KvEngine) (k : Bytes) : Option String × KvEngine :=
  if e.failing then (some "del: i/o failure", e)
  else (none, { e with kvs := e.kvs.filter (fun kv => kv.1 != k) })

/-- Modelled from the spec: `GetPrefixRangeKvs` of the key-value engine. -/
def KvEngine.GetPrefixRangeKvs (e : KvEngine) (pre : Bytes) :
    List Bytes × List Bytes × Option String :=
  if e.failing then ([], [], some "scan: i/o failure")
  else
    let hits := e.kvs.filter (fun kv => pre.isPrefixOf kv.1)
    (hits.map Prod.fst, hits.map Prod.snd, none)

/-- Modelled from the spec: the number N of slots of a `TopoConfig` (section 3
leaves N open). -/
def NSlots : Nat := 10

/-- Modelled from the spec: the topology state machine `TopoConfigSTM`
(section 4.4): the config versions created so far, oldest first. -/
structure TopoSTM where
  configs : List TopoConfig
  deriving DecidableEq, Repr

/-- Modelled from the spec: the config of version 0, before any `Join`: no
group, every slot unassigned (owner 0). -/
def defaultConfig : TopoConfig :=
  { Version := 0, ServerGroups := [], Slots := List.replicate NSlots 0 }

/-- Modelled from the spec: the topology state machine that `NewTopoConfigSTM`
builds at start-up; it holds the config of version 0 only. -/
def NewTopoConfigSTM : TopoSTM := { configs := [defaultConfig] }

/-- Modelled from the spec: the slot assignment of a new config, "per-group slot
counts approximately equal", "ties broken by ascending group id"; a config
without groups "leaves all slots unassigned" (owner 0). -/
def balanceSlots (gids : List Int) : List Int :=
  let sorted := gids.insertionSort (fun a b => a ≤ b)
  (List.range NSlots).map (fun i => (sorted.get? (i % sorted.length)).getD 0)

/-- Modelled from the spec: the latest config of the topology state machine. -/
def TopoSTM.latest (t : TopoSTM) : TopoConfig :=
  t.configs.getLast?.getD defaultConfig

/-- Modelled from the spec: the key under which a config version is stored in
the metadata store. -/
def configKey (version : Int) : Bytes := [99, version.toNat]

/-- Modelled from the spec: "a new version is created, never mutated in place, on
every Join/Leave": the config after the latest one is appended and written to
the metadata store; a store failure is returned as the error. -/
def TopoSTM.commit (t : TopoSTM) (e : KvEngine) (groups : List (Int × List String)) :
    Option String × TopoSTM × KvEngine :=
  let conf : TopoConfig :=
    { Version := t.latest.Version + 1, ServerGroups := groups,
      Slots := balanceSlots (groups.map Prod.fst) }
  let r := e.Put (configKey conf.Version) (conf.Slots.map Int.toNat)
  match r.1 with
  | some err => (some err, t, r.2)
  | none => (none, { configs := t.configs ++ [conf] }, r.2)

/-- Modelled from the spec: `Join` of the topology state machine, "merges new
groups into the latest config, rebalances slot ownership, produces a new
config version". -/
def TopoSTM.Join (t : TopoSTM) (e : KvEngine) (groups : List (Int × List String)) :
    Option String × TopoSTM × KvEngine :=
  let old := t.latest.ServerGroups.filter (fun g => !(groups.map Prod.fst).contains g.1)
  t.commit e (old ++ groups)

/-- Modelled from the spec: `Leave` of the topology state machine, "removes the
given groups, reassigns their slots to remaining groups, produces a new
version". -/
def TopoSTM.Leave (t : TopoSTM) (e : KvEngine) (gids : List Int) :
    Option String × TopoSTM × KvEngine :=
  t.commit e (t.latest.ServerGroups.filter (fun g => !gids.contains g.1))

/-- Modelled from the spec: `Query` of the topology state machine, "read-only;
returns the config at the requested version, or latest if version is
non-positive or exceeds the known maximum". -/
def TopoSTM.Query (t : TopoSTM) (_e : KvEngine) (version : Int) : TopoConfig × Option String :=
  if version ≤ 0 ∨ t.latest.Version < version then (t.latest, none)
  else
    match t.configs.find? (fun c => c.Version == version) with
    | some c => (c, none)
    | none => (t.latest, none)

/-- Modelled from the spec: a string in the "length-prefixed" binary encoding of
section 6. -/
def encStr (x : String) : Bytes := x.length :: x.toList.map Char.toNat

/-- Modelled from the spec: the reader of `encStr`, with the unread rest. -/
def decStr : Bytes → String × Bytes
  | [] => ("", [])
  | n :: rest => (String.mk ((rest.take n).map Char.ofNat), rest.drop n)

/-- Modelled from the spec: an integer as a sign and a magnitude. -/
def encInt (i : Int) : Bytes := [if i < 0 then 1 else 0, i.natAbs]

/-- Modelled from the spec: the reader of `encInt`, with the unread rest. -/
def decInt : Bytes → Int × Bytes
  | sign :: n :: rest => (if sign = 1 then -(n : Int) else (n : Int), rest)
  | _ => (0, [])

/-- Modelled from the spec: a raw payload, length-prefixed. -/
def encRaw (b : Bytes) : Bytes := b.length :: b

/-- Modelled from the spec: the reader of `encRaw`, with the unread rest. -/
def decRaw : Bytes → Bytes × Bytes
  | [] => ([], [])
  | n :: rest => (rest.take n, rest.drop n)

/-- Modelled from the spec: the reader of `n` consecutive items. -/
def decList {α : Type} (dec : Bytes → α × Bytes) : Nat → Bytes → List α × Bytes
  | 0, b => ([], b)
  | n + 1, b =>
    let x := dec b
    let xs := decList dec n x.2
    (x.1 :: xs.1, xs.2)

/-- Modelled from the spec: the codec function `EncodeBucket`. -/
def EncodeBucket (b : Bucket) : Bytes := encStr b.BucketId ++ encStr b.BucketName

/-- Modelled from the spec: the codec function `DecodeBucket`. -/
def DecodeBucket (b : Bytes) : Bucket :=
  let i := decStr b
  let n := decStr i.2
  { BucketId := i.1, BucketName := n.1 }

/-- Modelled from the spec: the codec function `EncodeObject`. -/
def EncodeObject (o : Object) : Bytes :=
  encStr o.ObjectId ++ encStr o.ObjectName ++ encStr o.FromBucketId ++
    (o.ObjectBlocksMeta.length :: o.ObjectBlocksMeta.flatMap encRaw)

/-- Modelled from the spec: the reader of `EncodeObject`, with the unread rest. -/
def decObject (b : Bytes) : Object × Bytes :=
  let i := decStr b
  let n := decStr i.2
  let f := decStr n.2
  match f.2 with
  | [] => ({ ObjectId := i.1, ObjectName := n.1, FromBucketId := f.1, ObjectBlocksMeta := [] }, [])
  | k :: rest =>
    let m := decList decRaw k rest
    ({ ObjectId := i.1, ObjectName := n.1, FromBucketId := f.1, ObjectBlocksMeta := m.1 }, m.2)

/-- Modelled from the spec: the codec function `DecodeObject`. -/
def DecodeObject (b : Bytes) : Object := (decObject b).1

/-- Modelled from the spec: the fixed key prefix of bucket rows. -/
def BUCKET_META_PREFIX_BYTES : Bytes := [98, 47]

/-- Modelled from the spec: the fixed key prefix of object rows. -/
def OBJECT_META_PREFIX_BYTES : Bytes := [111, 47]

/-- Modelled from the spec: the codec function `EncodeBucketKey`, the bucket
prefix followed by the identifier. -/
def EncodeBucketKey (id : String) : Bytes := BUCKET_META_PREFIX_BYTES ++ id.toList.map Char.toNat

/-- Modelled from the spec: the codec function `EncodeObjectKey`, the object
prefix followed by the identifier. -/
def EncodeObjectKey (id : String) : Bytes := OBJECT_META_PREFIX_BYTES ++ id.toList.map Char.toNat

/-- Modelled from the spec: the wire number of an operation kind. -/
def OpType.toTag : OpType → Nat
  | .OP_SERVER_GROUP_JOIN => 0
  | .OP_SERVER_GROUP_LEAVE => 1
  | .OP_SERVER_GROUP_QUERY => 2
  | .OP_OSS_BUCKET_ADD => 3
  | .OP_OSS_BUCKET_DEL => 4
  | .OP_OSS_BUCKET_LIST => 5
  | .OP_OSS_OBJECT_PUT => 6
  | .OP_OSS_OBJECT_GET => 7
  | .OP_OSS_OBJECT_LIST => 8
  | .OP_UNRECOGNIZED => 9

/-- Modelled from the spec: the operation kind of a wire number. -/
def OpType.ofTag : Nat → OpType
  | 0 => .OP_SERVER_GROUP_JOIN
  | 1 => .OP_SERVER_GROUP_LEAVE
  | 2 => .OP_SERVER_GROUP_QUERY
  | 3 => .OP_OSS_BUCKET_ADD
  | 4 => .OP_OSS_BUCKET_DEL
  | 5 => .OP_OSS_BUCKET_LIST
  | 6 => .OP_OSS_OBJECT_PUT
  | 7 => .OP_OSS_OBJECT_GET
  | 8 => .OP_OSS_OBJECT_LIST
  | _ => .OP_UNRECOGNIZED

/-- Modelled from the spec: the codec function `EncodeServerGroupMetaRequest`,
"encodes the request into command bytes". -/
def EncodeServerGroupMetaRequest (req : ServerGroupMetaConfigRequest) : Bytes :=
  req.OpType.toTag ::
    (req.ServerGroups.length :: req.ServerGroups.flatMap (fun g => encInt g.1 ++ encStr g.2)) ++
    (req.Gids.length :: req.Gids.flatMap encInt) ++
    encInt req.ConfigVersion ++
    (match req.BucketOpReq with
      | none => [0]
      | some b =>
        1 :: (encStr b.BucketName ++ encStr b.BucketId ++
          (match b.Object with
            | none => [0]
            | some o => 1 :: EncodeObject o)))

/-- Modelled from the spec: the reader of the bucket part of a request. -/
def decBucketOpReq : Bytes → Option BucketOpRequest
  | 1 :: rest =>
    let n := decStr rest
    let i := decStr n.2
    match i.2 with
    | 1 :: o => some { BucketName := n.1, BucketId := i.1, Object := some (decObject o).1 }
    | _ => some { BucketName := n.1, BucketId := i.1, Object := none }
  | _ => none

/-- Modelled from the spec: the codec function `DecodeServerGroupMetaRequest`. -/
def DecodeServerGroupMetaRequest : Bytes → ServerGroupMetaConfigRequest
  | [] =>
    { OpType := .OP_UNRECOGNIZED, ServerGroups := [], Gids := [], ConfigVersion := 0,
      BucketOpReq := none }
  | tag :: rest =>
    let groups :=
      match rest with
      | [] => ([], [])
      | k :: r =>
        decList (fun b => let g := decInt b; let a := decStr g.2; ((g.1, a.1), a.2)) k r
    let gids :=
      match groups.2 with
      | [] => ([], [])
      | k :: r => decList decInt k r
    let v := decInt gids.2
    { OpType := OpType.ofTag tag, ServerGroups := groups.1, Gids := gids.1,
      ConfigVersion := v.1, BucketOpReq := decBucketOpReq v.2 }

/-- The unsigned integers of the `encoding/gob` wire format: a value below 128
is one byte; any other is its minimal big-endian bytes after one byte that
holds their count, negated. `bigEndian fuel n` are those bytes for a value of
at most `fuel` bytes. -/
def bigEndian : Nat → Nat → Bytes
  | 0, _ => []
  | fuel + 1, n => if n = 0 then [] else bigEndian fuel (n / 256) ++ [n % 256]

/-- An unsigned integer in the `encoding/gob` wire format (values of at most 8
bytes). -/
def gobUint (n : Nat) : Bytes :=
  if n < 128 then [n] else (256 - (bigEndian 8 n).length) :: bigEndian 8 n

/-- The reader of `gobUint`, with the unread rest; `none` on malformed or short
input. -/
def gobReadUint : Bytes → Option (Nat × Bytes)
  | [] => none
  | b :: rest =>
    if b < 128 then some (b, rest)
    else if 256 - b ≤ 8 ∧ 256 - b ≤ rest.length then
      some ((rest.take (256 - b)).foldl (fun acc d => acc * 256 + d) 0, rest.drop (256 - b))
    else none

/-- A string in the `encoding/gob` wire format: the byte count and the bytes. A
Go string is kept as the `String` whose characters are its bytes. -/
def gobString (x : String) : Bytes := gobUint x.length ++ x.toList.map Char.toNat

/-- The reader of `gobString`, with the unread rest. -/
def gobReadString (b : Bytes) : Option (String × Bytes) :=
  match gobReadUint b with
  | none => none
  | some (n, rest) =>
    if n ≤ rest.length then some (String.mk ((rest.take n).map Char.ofNat), rest.drop n)
    else none

/-- The type-definition message that `encoding/gob` sends before the first
value of type `map[string]string`: 14 bytes that define type id 65 as a map
from string (id 6) to string. -/
def gobMapTypeMessage : Bytes := [14, 255, 129, 4, 1, 2, 255, 130, 0, 1, 12, 1, 12, 0, 0]

/-- The `encoding/gob` encoding of a `map[string]string` by a fresh encoder, as
in `taskSnapshot`: the type definition, then the value message (type id 65, the
zero byte of a top-level non-struct value, the entry count and the entries).
The entries are written in the order of the association list, which stands for
the iteration order of the run; a nil map is written as the empty map. -/
def gobEncode (m : ConfMap) : Blob :=
  let entries := m.getD []
  let value : Bytes :=
    [255, 130, 0] ++ gobUint entries.length ++
      entries.flatMap (fun kv => gobString kv.1 ++ gobString kv.2)
  some (gobMapTypeMessage ++ gobUint value.length ++ value)

/-- The reader of `n` map entries: the entries read and whether the input ran
out before the last one. -/
def gobReadEntries : Nat → Bytes → List (String × String) × Bool
  | 0, _ => ([], false)
  | n + 1, b =>
    match gobReadString b with
    | none => ([], true)
    | some (k, rest) =>
      match gobReadString rest with
      | none => ([], true)
      | some (v, rest1) =>
        let r := gobReadEntries n rest1
        ((k, v) :: r.1, r.2)

/-- The `encoding/gob` decoder of `restoreSnapshot` on a stream as `gobEncode`
writes it: the map left in the nil target variable and whether `Decode`
returned an error. Input that does not start with the type definition and a
complete value message of that type is an error that leaves the nil map (so
does the empty input); otherwise the target becomes a map with the entries
read. -/
def gobDecode (b : Bytes) : ConfMap × Bool :=
  if gobMapTypeMessage.isPrefixOf b then
    match gobReadUint (b.drop gobMapTypeMessage.length) with
    | none => (none, true)
    | some (len, rest) =>
      if len ≤ rest.length ∧ [255, 130, 0].isPrefixOf (rest.take len) then
        match gobReadUint ((rest.take len).drop 3) with
        | none => (none, true)
        | some (n, body) =>
          let r := gobReadEntries n body
          (some r.1, r.2)
      else (none, true)
  else (none, true)

/-- The collaborators of a concrete node. -/
def nodeEnv : Env RaftCore KvEngine TopoSTM where
  zeroErrCode := .NO_ERR
  Propose := RaftCore.Propose
  GetLeaderId := fun rf => rf.leaderId
  GetLogCount := fun rf => rf.log.length
  Snapshot := RaftCore.Snapshot
  CondInstallSnapshot := RaftCore.CondInstallSnapshot
  ReadSnapshot := fun rf => rf.snapshot
  Put := KvEngine.Put
  Del := KvEngine.Del
  GetPrefixRangeKvs := KvEngine.GetPrefixRangeKvs
  Join := TopoSTM.Join
  Leave := TopoSTM.Leave
  Query := TopoSTM.Query
  EncodeServerGroupMetaRequest := EncodeServerGroupMetaRequest
  DecodeServerGroupMetaRequest := DecodeServerGroupMetaRequest
  EncodeBucketKey := EncodeBucketKey
  EncodeBucket := EncodeBucket
  DecodeBucket := DecodeBucket
  EncodeObjectKey := EncodeObjectKey
  EncodeObject := EncodeObject
  DecodeObject := DecodeObject
  BUCKET_META_PREFIX := BUCKET_META_PREFIX_BYTES
  OBJECT_META_PREFIX := OBJECT_META_PREFIX_BYTES
  gobEncode := gobEncode
  gobDecode := gobDecode

/-- A follower that has applied nothing, with an empty metadata store. -/
def freshRaft : RaftCore :=
  { isLeader := false, leaderId := 2, term := 1, log := [], lastIncludedIndex := 0,
    commitIndex := 0, snapshot := none }

/-- The node built by `MakeMetaServer` over `freshRaft` and an empty store. -/
def freshNode : MetaServer RaftCore KvEngine TopoSTM :=
  MakeMetaServer nodeEnv freshRaft { kvs := [], failing := false } NewTopoConfigSTM

/-! ## Concrete inputs -/

/-- A request with only its operation kind set. -/
def bareRequest (op : OpType) : ServerGroupMetaConfigRequest :=
  { OpType := op, ServerGroups := [], Gids := [], ConfigVersion := 0, BucketOpReq := none }

/-- The committed-command message that carries `req` at log index `index`. -/
def commandMsg (req : ServerGroupMetaConfigRequest) (index : Int) : ApplyMsg :=
  { CommandValid := true, Command := EncodeServerGroupMetaRequest req, CommandIndex := index,
    SnapshotValid := false, Snapshot := none, SnapshotTerm := 0, SnapshotIndex := 0 }

/-- The request "add the bucket photos". -/
def addBucketReq : ServerGroupMetaConfigRequest :=
  { bareRequest .OP_OSS_BUCKET_ADD with
    BucketOpReq := some { BucketName := "photos", BucketId := "", Object := none } }

/-- The request "query the latest topology". -/
def queryReq : ServerGroupMetaConfigRequest :=
  { bareRequest .OP_SERVER_GROUP_QUERY with ConfigVersion := -1 }

/-- The request "group 1 leaves". -/
def leaveReq : ServerGroupMetaConfigRequest :=
  { bareRequest .OP_SERVER_GROUP_LEAVE with Gids := [1] }

/-- A follower whose metadata store fails every write. -/
def brokenStoreNode : MetaServer RaftCore KvEngine TopoSTM :=
  MakeMetaServer nodeEnv freshRaft { kvs := [], failing := true } NewTopoConfigSTM

/-- A leader whose metadata store fails every write. -/
def brokenStoreLeader : MetaServer RaftCore KvEngine TopoSTM :=
  MakeMetaServer nodeEnv { freshRaft with isLeader := true, leaderId := 1 }
    { kvs := [], failing := true } NewTopoConfigSTM

/-- The leader after a handler proposed `leaveReq` and registered its channel,
and the apply loop then processed the committed entry. -/
def brokenStoreLeaderAfterLeave : MetaServer RaftCore KvEngine TopoSTM :=
  ((ApplingToSTM_command nodeEnv "" (ServerGroupMeta_propose nodeEnv brokenStoreLeader leaveReq).2
      (commandMsg leaveReq 1)).state?).getD brokenStoreLeader

/-- A node whose `confStm` holds one entry. -/
def restoredNode : MetaServer RaftCore KvEngine TopoSTM :=
  { freshNode with confStm := some [("k", "v")] }

/-- A snapshot-install message at index 5 whose snapshot bytes are nil. -/
def nilSnapshotMsg : ApplyMsg :=
  { CommandValid := false, Command := [], CommandIndex := 0, SnapshotValid := true,
    Snapshot := none, SnapshotTerm := 1, SnapshotIndex := 5 }

/-- A snapshot-install message at index 5 that carries the map with the single
entry `("a", "b")`. -/
def snapshotMsg : ApplyMsg :=
  { nilSnapshotMsg with Snapshot := gobEncode (some [("a", "b")]) }


/-- A schedule of two passes: a bucket is added at index 1, then the topology
is queried at index 2. -/
def twoCommands : List (String × Bool × Option ApplyMsg) :=
  [("id-a", false, some (commandMsg addBucketReq 1)), ("", false, some (commandMsg queryReq 2))]

/-- The node `restoredNode` after the schedule `twoCommands`. -/
def restoredNodeAfterTwoCommands : MetaServer RaftCore KvEngine TopoSTM :=
  ((ApplingToSTM nodeEnv twoCommands restoredNode).state?).getD restoredNode

/-- The node `freshNode` after the apply loop processed a topology query
committed at index 7 while no handler was registered. -/
def freshNodeAfterQuery : MetaServer RaftCore KvEngine TopoSTM :=
  ((ApplingToSTM_command nodeEnv "" freshNode (commandMsg queryReq 7)).state?).getD freshNode

/-- The response the apply loop builds for `queryReq` on `freshNode`. -/
def freshQueryResponse : ServerGroupMetaConfigResponse :=
  { ErrCode := .NO_ERR, LeaderId := 0,
    ServerGroupMetas := some { ConfigVersion := 0, ServerGroups := [],
                               Slots := [0, 0, 0, 0, 0, 0, 0, 0, 0, 0] },
    BucketOpRes := none }

/-- The request "group 1 joins with the servers a:1 and b:2". -/
def joinReq : ServerGroupMetaConfigRequest :=
  { bareRequest .OP_SERVER_GROUP_JOIN with ServerGroups := [(1, "a:1,b:2")] }

/-- The request "query the topology of version 1". -/
def queryV1Req : ServerGroupMetaConfigRequest :=
  { bareRequest .OP_SERVER_GROUP_QUERY with ConfigVersion := 1 }

/-- The node `restoredNode` after the apply loop processed `joinReq` committed at
index 1: its topology has version 1, its `confStm` still holds `("k", "v")`. -/
def joinedNode : MetaServer RaftCore KvEngine TopoSTM :=
  ((ApplingToSTM_command nodeEnv "" restoredNode (commandMsg joinReq 1)).state?).getD restoredNode

/-- The response the apply loop builds for `queryV1Req` on `joinedNode`. -/
def joinedQueryResponse : ServerGroupMetaConfigResponse :=
  { ErrCode := .NO_ERR, LeaderId := 0,
    ServerGroupMetas := some { ConfigVersion := 1, ServerGroups := [(1, "a:1,b:2")],
                               Slots := [1, 1, 1, 1, 1, 1, 1, 1, 1, 1] },
    BucketOpRes := none }

/-- A leader that has applied nothing, with an empty metadata store. -/
def leaderNode : MetaServer RaftCore KvEngine TopoSTM :=
  MakeMetaServer nodeEnv { freshRaft with isLeader := true, leaderId := 1 }
    { kvs := [], failing := false } NewTopoConfigSTM

/-! ## Maps and channels -/

/-- Deleting key `k` does not change what is stored under another key. -/
theorem lookup_filter_ne (m : List (Int × Nat)) (k j : Int) (h : j ≠ k) :
    (m.filter (fun e => e.1 != k)).lookup j = m.lookup j := by
  induction m with
  | nil => rfl
  | cons e m ih =>
    obtain ⟨a, b⟩ := e
    by_cases hak : a = k
    · subst hak
      have hja : (j == a) = false := by simpa using h
      simp [List.filter, List.lookup, hja, ih]
    · have hne : (a != k) = true := by simpa using hak
      simp only [List.filter, hne, List.lookup]
      cases hj : (j == a) <;> simp [ih]

/-- After deleting key `k` nothing is stored under it. -/
theorem lookup_filter_self (m : List (Int × Nat)) (k : Int) :
    (m.filter (fun e => e.1 != k)).lookup k = none := by
  induction m with
  | nil => rfl
  | cons e m ih =>
    obtain ⟨a, b⟩ := e
    by_cases hak : a = k
    · subst hak
      simp [List.filter, ih]
    · have hne : (a != k) = true := by simpa using hak
      have hka : (k == a) = false := by simpa using (fun h => hak h.symm)
      simp [List.filter, hne, List.lookup, hka, ih]

/-- Reading the key just written gives the value written. -/
theorem lookup_mapSet_self (m : List (Int × Nat)) (k : Int) (v : Nat) :
    (mapSet m k v).lookup k = some v := by
  simp [mapSet, List.lookup]

/-- Writing key `k` does not change what is stored under another key. -/
theorem lookup_mapSet_ne (m : List (Int × Nat)) (k j : Int) (v : Nat) (h : j ≠ k) :
    (mapSet m k v).lookup j = m.lookup j := by
  have hjk : (j == k) = false := by simpa using h
  simp [mapSet, List.lookup, hjk, lookup_filter_ne m k j h]

/-- A send on a channel that was just made succeeds. -/
theorem chanSend_fresh (chans : List (Option ServerGroupMetaConfigResponse))
    (resp : ServerGroupMetaConfigResponse) :
    chanSend (chans ++ [none]) chans.length resp = some (chans ++ [some resp]) := by
  simp [chanSend]

/-- A send on a channel with an empty buffer succeeds. -/
theorem chanSend_empty (chans : List (Option ServerGroupMetaConfigResponse)) (ch : Nat)
    (resp : ServerGroupMetaConfigResponse) (h : chans[ch]? = some none) :
    chanSend chans ch resp = some (chans.set ch (some resp)) := by
  simp [chanSend, h]

/-- A receive after a send yields the value sent and empties the buffer. -/
theorem chanRecv_set (chans : List (Option ServerGroupMetaConfigResponse)) (ch : Nat)
    (resp : ServerGroupMetaConfigResponse) (h : ch < chans.length) :
    chanRecv (chans.set ch (some resp)) ch = some (resp, chans.set ch none) := by
  simp [chanRecv, h]

/-- A receive after a send on a fresh channel yields the value sent. -/
theorem chanRecv_fresh (chans : List (Option ServerGroupMetaConfigResponse))
    (resp : ServerGroupMetaConfigResponse) :
    chanRecv (chans ++ [some resp]) chans.length = some (resp, chans ++ [none]) := by
  simp [chanRecv]

/-! ## Frame of the apply step -/

/-- The `switch` leaves every field but `metaEng` and `stm` as it was. -/
theorem applyOp_frame (E : Env Raft Store Topo) (uuid : String) (s s1 : MetaServer Raft Store Topo)
    (req : ServerGroupMetaConfigRequest) (resp : ServerGroupMetaConfigResponse)
    (h : applyOp E uuid s req = .ok (resp, s1)) :
    s1.confStm = s.confStm ∧ s1.rf = s.rf ∧ s1.notifyChans = s.notifyChans ∧
      s1.chans = s.chans ∧ s1.lastApplied = s.lastApplied ∧ s1.applyCh = s.applyCh ∧
      s1.stopApplyCh = s.stopApplyCh := by
  unfold applyOp at h
  dsimp only at h
  repeat' split at h
  all_goals first
    | (cases h; done)
    | (simp only [Except.ok.injEq, Prod.mk.injEq] at h
       obtain ⟨_, rfl⟩ := h
       simp)

/-- Routing a response changes `notifyChans` and `chans` only, and always
carries the response. -/
theorem routeResponse_frame (s : MetaServer Raft Store Topo) (i : Int)
    (resp : ServerGroupMetaConfigResponse) :
    ∃ s1, (routeResponse s i resp).state? = some s1 ∧
      (routeResponse s i resp).response? = some resp ∧
      s1.metaEng = s.metaEng ∧ s1.stm = s.stm ∧ s1.confStm = s.confStm ∧ s1.rf = s.rf ∧
      s1.lastApplied = s.lastApplied := by
  unfold routeResponse getRespNotifyChan
  cases hl : s.notifyChans.lookup i with
  | none =>
    dsimp only
    split <;> exact ⟨_, rfl, rfl, rfl, rfl, rfl, rfl, rfl⟩
  | some ch =>
    dsimp only
    split <;> exact ⟨_, rfl, rfl, rfl, rfl, rfl, rfl, rfl⟩

/-- The response of the command branch is the one built by the `switch`. -/
theorem command_response (E : Env Raft Store Topo) (uuid : String)
    (s : MetaServer Raft Store Topo) (m : ApplyMsg) :
    (ApplingToSTM_command E uuid s m).response? =
      (applyOp E uuid s (E.DecodeServerGroupMetaRequest m.Command)).toOption.map Prod.fst := by
  cases h : applyOp E uuid s (E.DecodeServerGroupMetaRequest m.Command) with
  | error e => simp only [ApplingToSTM_command, h]; rfl
  | ok p =>
    obtain ⟨resp, s1⟩ := p
    simp only [ApplingToSTM_command, h]
    obtain ⟨_, _, hr, _⟩ := routeResponse_frame
      (if E.GetLogCount s1.rf > 20 then
        taskSnapshot E { s1 with lastApplied := m.CommandIndex } m.CommandIndex
       else { s1 with lastApplied := m.CommandIndex }) m.CommandIndex resp
    simpa [Except.toOption] using hr

/-- The state left by the command branch, field by field. -/
theorem command_state (E : Env Raft Store Topo) (uuid : String)
    (s s2 : MetaServer Raft Store Topo) (m : ApplyMsg)
    (h : (ApplingToSTM_command E uuid s m).state? = some s2) :
    ∃ resp s1, applyOp E uuid s (E.DecodeServerGroupMetaRequest m.Command) = .ok (resp, s1) ∧
      s2.metaEng = s1.metaEng ∧ s2.stm = s1.stm ∧ s2.confStm = s.confStm ∧
      s2.lastApplied = m.CommandIndex ∧
      s2.rf = (if E.GetLogCount s.rf > 20 then
        E.Snapshot s.rf m.CommandIndex (E.gobEncode s.confStm) else s.rf) := by
  cases hop : applyOp E uuid s (E.DecodeServerGroupMetaRequest m.Command) with
  | error e => simp only [ApplingToSTM_command, hop] at h; cases h
  | ok p =>
    obtain ⟨resp, s1⟩ := p
    simp only [ApplingToSTM_command, hop] at h
    obtain ⟨hc, hrf, _⟩ := applyOp_frame E uuid s s1 _ resp hop
    obtain ⟨s3, hs3, _, h1, h2, h3, h4, h5⟩ := routeResponse_frame
      (if E.GetLogCount s1.rf > 20 then
        taskSnapshot E { s1 with lastApplied := m.CommandIndex } m.CommandIndex
       else { s1 with lastApplied := m.CommandIndex }) m.CommandIndex resp
    rw [hs3] at h
    cases h
    refine ⟨resp, s1, rfl, ?_, ?_, ?_, ?_, ?_⟩
    · rw [h1]; split <;> rfl
    · rw [h2]; split <;> rfl
    · rw [h3, ← hc]; split <;> rfl
    · rw [h5]; split <;> rfl
    · rw [h4, hrf, ← hc]
      by_cases hg : E.GetLogCount s.rf > 20
      · simp [hg, taskSnapshot, hrf]
      · simp [hg, hrf]

/-- The response built by the `switch` depends on the metadata store, the
topology state and the request only, not on the identifier drawn. -/
theorem applyOp_resp_congr (E : Env Raft Store Topo) (u1 u2 : String)
    (s1 s2 : MetaServer Raft Store Topo) (req : ServerGroupMetaConfigRequest)
    (hE : s1.metaEng = s2.metaEng) (hT : s1.stm = s2.stm) :
    (applyOp E u1 s1 req).toOption.map Prod.fst = (applyOp E u2 s2 req).toOption.map Prod.fst := by
  unfold applyOp
  rw [hE, hT]
  dsimp only
  repeat' split
  all_goals simp_all [Except.toOption]

/-- The store and topology state left by the `switch` depend on the metadata
store, the topology state, the request and, in the two branches that draw one,
the identifier. -/
theorem applyOp_store_congr (E : Env Raft Store Topo) (u1 u2 : String)
    (s1 s2 : MetaServer Raft Store Topo) (req : ServerGroupMetaConfigRequest)
    (hE : s1.metaEng = s2.metaEng) (hT : s1.stm = s2.stm)
    (hu : u1 = u2 ∨ (req.OpType ≠ .OP_OSS_BUCKET_ADD ∧ req.OpType ≠ .OP_OSS_OBJECT_PUT)) :
    (applyOp E u1 s1 req).toOption.map (fun p => (p.2.metaEng, p.2.stm)) =
      (applyOp E u2 s2 req).toOption.map (fun p => (p.2.metaEng, p.2.stm)) := by
  rcases hu with rfl | ⟨ha, hp⟩
  · unfold applyOp
    rw [hE, hT]
    dsimp only
    repeat' split
    all_goals simp_all [Except.toOption]
  · unfold applyOp
    rw [hE, hT]
    dsimp only
    repeat' split
    all_goals simp_all [Except.toOption]

/-- The store and topology state left by the command branch are those left by
the `switch`. -/
theorem command_store (E : Env Raft Store Topo) (uuid : String)
    (s : MetaServer Raft Store Topo) (m : ApplyMsg) :
    (ApplingToSTM_command E uuid s m).state?.map (fun t => (t.metaEng, t.stm)) =
      (applyOp E uuid s (E.DecodeServerGroupMetaRequest m.Command)).toOption.map
        (fun p => (p.2.metaEng, p.2.stm)) := by
  cases h : applyOp E uuid s (E.DecodeServerGroupMetaRequest m.Command) with
  | error e => simp only [ApplingToSTM_command, h]; rfl
  | ok p =>
    obtain ⟨resp, s1⟩ := p
    simp only [ApplingToSTM_command, h]
    obtain ⟨s3, hs3, _, h1, h2, _⟩ := routeResponse_frame
      (if E.GetLogCount s1.rf > 20 then
        taskSnapshot E { s1 with lastApplied := m.CommandIndex } m.CommandIndex
       else { s1 with lastApplied := m.CommandIndex }) m.CommandIndex resp
    rw [hs3]
    simp only [Option.map, Except.toOption, h1, h2]
    split <;> rfl

/-! ## The claims -/

/-- One pass of the loop that is not offered a snapshot message leaves `confStm`
as it was. -/
theorem iter_keeps_confStm (E : Env Raft Store Topo) (uuid : String) (pickDone : Bool)
    (s s1 : MetaServer Raft Store Topo) (incoming : Option ApplyMsg)
    (hc : ∀ m, incoming = some m → m.CommandValid = true)
    (h : (ApplingToSTM_iter E uuid pickDone s incoming).state? = some s1) :
    s1.confStm = s.confStm := by
  have hcmdcase : ∀ m, incoming = some m →
      (ApplingToSTM_command E uuid s m).state? = some s1 → s1.confStm = s.confStm := by
    intro m _ h2
    obtain ⟨_, _, _, _, _, hcs, _⟩ := command_state E uuid s s1 m h2
    exact hcs
  unfold ApplingToSTM_iter at h
  cases hcl : s.applyCh.closed <;> cases hd : s.stopApplyCh.closed <;> cases pickDone <;>
    rcases incoming with _ | m <;>
    simp only [hcl, hd, Option.map, Option.isNone, Bool.false_and, Bool.true_and, Bool.or_false,
      Bool.or_true, Bool.false_or, if_true, if_false, Bool.false_eq_true, ite_true, ite_false,
      LoopResult.state?, Option.some.injEq, reduceCtorEq] at h
  all_goals first
    | (subst h; rfl)
    | (rw [if_pos (hc m rfl)] at h; exact hcmdcase m rfl h)

/-- C10: no committed-command message changes `confStm`. Along every run of the
apply loop that is offered only committed-command messages (of any op type),
`confStm` stays what it was; hence the bytes `taskSnapshot` hands to the Raft
core's `Snapshot` afterwards, and the bytes the next command pass hands to it
when the log count exceeds 20, are the gob encoding of the map the run started
with. -/
theorem ApplingToSTM_commands_keep_confStm (E : Env Raft Store Topo)
    (sched : List (String × Bool × Option ApplyMsg)) (s s1 : MetaServer Raft Store Topo)
    (hcmd : ∀ e ∈ sched, ∀ m, e.2.2 = some m → m.CommandValid = true)
    (hrun : (ApplingToSTM E sched s).state? = some s1) :
    s1.confStm = s.confStm ∧
      (∀ index, taskSnapshot E s1 index =
        { s1 with rf := E.Snapshot s1.rf index (E.gobEncode s.confStm) }) ∧
      (∀ uuid m s2, (ApplingToSTM_command E uuid s1 m).state? = some s2 →
        s2.confStm = s.confStm ∧
        s2.rf = (if E.GetLogCount s1.rf > 20 then
          E.Snapshot s1.rf m.CommandIndex (E.gobEncode s.confStm) else s1.rf)) := by
  have key : s1.confStm = s.confStm := by
    induction sched generalizing s with
    | nil =>
      simp only [ApplingToSTM, LoopResult.state?] at hrun
      cases hrun; rfl
    | cons e rest ih =>
      obtain ⟨uuid, pickDone, incoming⟩ := e
      have hhead : ∀ m, incoming = some m → m.CommandValid = true :=
        fun m hm => hcmd (uuid, pickDone, incoming) (List.mem_cons_self _ _) m hm
      have htail : ∀ e ∈ rest, ∀ m, e.2.2 = some m → m.CommandValid = true :=
        fun e he m hm => hcmd e (List.mem_cons_of_mem _ he) m hm
      simp only [ApplingToSTM] at hrun
      cases hit : ApplingToSTM_iter E uuid pickDone s incoming with
      | iterated s2 sent =>
        rw [hit] at hrun
        have h2 : s2.confStm = s.confStm :=
          iter_keeps_confStm E uuid pickDone s s2 incoming hhead (by rw [hit]; rfl)
        rw [← h2]
        exact ih s2 htail hrun
      | exited s2 =>
        rw [hit] at hrun
        exact iter_keeps_confStm E uuid pickDone s s1 incoming hhead (by rw [hit]; exact hrun)
      | blockedOnSend s2 resp =>
        rw [hit] at hrun
        exact iter_keeps_confStm E uuid pickDone s s1 incoming hhead (by rw [hit]; exact hrun)
      | idle s2 =>
        rw [hit] at hrun
        exact iter_keeps_confStm E uuid pickDone s s1 incoming hhead (by rw [hit]; exact hrun)
      | panicked why =>
        rw [hit] at hrun
        cases hrun
  refine ⟨key, ?_, ?_⟩
  · intro index
    simp only [taskSnapshot, key]
  · intro uuid m s2 h2
    obtain ⟨_, _, _, _, _, hcs, _, hrf⟩ := command_state E uuid s1 s2 m h2
    rw [← key]
    exact ⟨hcs, hrf⟩

/-- Instance on a node with a non-empty
`confStm`, for a run that adds a bucket and then queries the topology. -/
theorem ApplingToSTM_commands_keep_confStm_witness :
    (ApplingToSTM nodeEnv twoCommands restoredNode).state? = some restoredNodeAfterTwoCommands ∧
      restoredNodeAfterTwoCommands.lastApplied = 2 ∧
      restoredNodeAfterTwoCommands.confStm = restoredNode.confStm :=
  ⟨by decide, by decide,
    (ApplingToSTM_commands_keep_confStm nodeEnv twoCommands restoredNode
      restoredNodeAfterTwoCommands (by decide) (by decide)).1⟩

/-- C1 (as amended): the apply step is deterministic in the state, the command
bytes and the identifier drawn from `GenGoogleUUID`. On two states with equal
metadata store and equal topology state the same committed-command message
yields equal responses whatever identifiers are drawn, and equal store and
topology contents when both draw the same identifier or the op type is neither
OP_OSS_BUCKET_ADD nor OP_OSS_OBJECT_PUT. -/
theorem ApplingToSTM_deterministic_given_uuid (E : Env Raft Store Topo) (u1 u2 : String)
    (s1 s2 : MetaServer Raft Store Topo) (m : ApplyMsg)
    (hE : s1.metaEng = s2.metaEng) (hT : s1.stm = s2.stm) :
    (ApplingToSTM_command E u1 s1 m).response? = (ApplingToSTM_command E u2 s2 m).response? ∧
      ((u1 = u2 ∨
          ((E.DecodeServerGroupMetaRequest m.Command).OpType ≠ .OP_OSS_BUCKET_ADD ∧
            (E.DecodeServerGroupMetaRequest m.Command).OpType ≠ .OP_OSS_OBJECT_PUT)) →
        (ApplingToSTM_command E u1 s1 m).state?.map (fun t => (t.metaEng, t.stm)) =
          (ApplingToSTM_command E u2 s2 m).state?.map (fun t => (t.metaEng, t.stm))) := by
  refine ⟨?_, fun hu => ?_⟩
  · rw [command_response, command_response]
    exact applyOp_resp_congr E u1 u2 s1 s2 _ hE hT
  · rw [command_store, command_store]
    exact applyOp_store_congr E u1 u2 s1 s2 _ hE hT hu

/-- Instance on a fresh node and a
node that differs from it in `confStm`, for the message that adds a bucket. -/
theorem ApplingToSTM_deterministic_given_uuid_witness :
    freshNode.metaEng = restoredNode.metaEng ∧ freshNode.stm = restoredNode.stm ∧
      (ApplingToSTM_command nodeEnv "id-a" freshNode (commandMsg addBucketReq 1)).state?.map
          (fun t => (t.metaEng, t.stm)) =
        (ApplingToSTM_command nodeEnv "id-a" restoredNode (commandMsg addBucketReq 1)).state?.map
          (fun t => (t.metaEng, t.stm)) :=
  ⟨by decide, by decide,
    (ApplingToSTM_deterministic_given_uuid nodeEnv "id-a" "id-a" freshNode restoredNode
      (commandMsg addBucketReq 1) (by decide) (by decide)).2 (Or.inl rfl)⟩

/-- C1 (as stated) fails: the same node applies the same OP_OSS_BUCKET_ADD
message twice from the same state, `GenGoogleUUID` returning `id-a` once and
`id-b` once; the responses agree and the metadata stores differ. -/
theorem bucket_add_store_depends_on_uuid :
    (ApplingToSTM_command nodeEnv "id-a" freshNode (commandMsg addBucketReq 1)).response? =
        (ApplingToSTM_command nodeEnv "id-b" freshNode (commandMsg addBucketReq 1)).response? ∧
      (ApplingToSTM_command nodeEnv "id-a" freshNode (commandMsg addBucketReq 1)).state?.map
          (fun t => t.metaEng) ≠
        (ApplingToSTM_command nodeEnv "id-b" freshNode (commandMsg addBucketReq 1)).state?.map
          (fun t => t.metaEng) := by
  decide

/-- C2 (as amended): when `notifyChans` has no entry for the index of a
committed command and the `switch` builds a response, the apply step registers
a fresh single-slot channel under that index and buffers the response in it.
Afterwards `notifyChans` maps the index to that channel, the channel holds
exactly the response, every other key is as before, and a handler that asks for
the channel of the index gets that channel and receives the response from it. -/
theorem ApplingToSTM_buffers_response_without_waiter (E : Env Raft Store Topo) (uuid : String)
    (s s1 : MetaServer Raft Store Topo) (m : ApplyMsg) (resp : ServerGroupMetaConfigResponse)
    (habs : s.notifyChans.lookup m.CommandIndex = none)
    (hop : applyOp E uuid s (E.DecodeServerGroupMetaRequest m.Command) = .ok (resp, s1)) :
    ∃ s2, ApplingToSTM_command E uuid s m = .iterated s2 (some resp) ∧
      s2.notifyChans.lookup m.CommandIndex = some s.chans.length ∧
      s2.chans[s.chans.length]? = some (some resp) ∧
      (∀ j, j ≠ m.CommandIndex → s2.notifyChans.lookup j = s.notifyChans.lookup j) ∧
      getRespNotifyChan s2 m.CommandIndex = (s.chans.length, s2) ∧
      (ServerGroupMeta_select E s2 s.chans.length false).map Prod.fst =
        some { ErrCode := .NO_ERR, LeaderId := 0, ServerGroupMetas := resp.ServerGroupMetas,
               BucketOpRes := resp.BucketOpRes } := by
  obtain ⟨_, _, hn, hch, _⟩ := applyOp_frame E uuid s s1 _ resp hop
  have hl : ((if E.GetLogCount s1.rf > 20 then
        taskSnapshot E { s1 with lastApplied := m.CommandIndex } m.CommandIndex
       else { s1 with lastApplied := m.CommandIndex }) : MetaServer Raft Store Topo).notifyChans
      = s.notifyChans := by
    split <;> simp [taskSnapshot, hn]
  have hc : ((if E.GetLogCount s1.rf > 20 then
        taskSnapshot E { s1 with lastApplied := m.CommandIndex } m.CommandIndex
       else { s1 with lastApplied := m.CommandIndex }) : MetaServer Raft Store Topo).chans
      = s.chans := by
    split <;> simp [taskSnapshot, hch]
  simp only [ApplingToSTM_command, hop, routeResponse, getRespNotifyChan, hl, hc, habs,
    chanSend_fresh]
  refine ⟨_, rfl, ?_, ?_, ?_, ?_, ?_⟩
  · exact lookup_mapSet_self _ _ _
  · simp
  · intro j hj
    exact lookup_mapSet_ne _ _ _ _ hj
  · simp [lookup_mapSet_self]
  · simp [ServerGroupMeta_select, chanRecv_fresh]

/-- Instance on a fresh node that applies a topology query committed at index
7: the index is absent before and mapped to channel 0 afterwards. -/
theorem ApplingToSTM_buffers_response_without_waiter_witness :
    freshNode.notifyChans.lookup 7 = none ∧
      (ApplingToSTM_command nodeEnv "" freshNode (commandMsg queryReq 7)).state?.bind
        (fun t => t.notifyChans.lookup 7) = some 0 := by
  refine ⟨by decide, ?_⟩
  obtain ⟨s2, h1, h2, _⟩ := ApplingToSTM_buffers_response_without_waiter nodeEnv "" freshNode
    freshNode (commandMsg queryReq 7) freshQueryResponse (by decide) rfl
  rw [h1]
  exact h2

/-- C2 (as stated) fails: a fresh node has no entry for index 7; after the apply
loop processed the command committed at index 7, `notifyChans` has an entry for
7, its channel holds the response, and a later `select` on the channel obtained
for index 7 returns the payload of that response. -/
theorem response_without_waiter_is_kept :
    freshNode.notifyChans.lookup 7 = none ∧
      ApplingToSTM_command nodeEnv "" freshNode (commandMsg queryReq 7) =
        .iterated freshNodeAfterQuery (some freshQueryResponse) ∧
      freshNodeAfterQuery.notifyChans.lookup 7 = some 0 ∧
      freshNodeAfterQuery.chans = [some freshQueryResponse] ∧
      (ServerGroupMeta_select nodeEnv (getRespNotifyChan freshNodeAfterQuery 7).2
          (getRespNotifyChan freshNodeAfterQuery 7).1 false).map Prod.fst =
        some freshQueryResponse := by
  decide

/-- C3 (the code departs from it): whatever response the apply loop delivered
on the channel, the receive case of the `select` in `ServerGroupMeta` copies
its `ServerGroupMetas` and `BucketOpRes` and sets `ErrCode` to NO_ERR; the
`ErrCode` attached by the pipeline is not returned. -/
theorem ServerGroupMeta_select_overwrites_ErrCode (E : Env Raft Store Topo)
    (s : MetaServer Raft Store Topo) (ch : Nat) (res : ServerGroupMetaConfigResponse)
    (chans1 : List (Option ServerGroupMetaConfigResponse))
    (h : chanRecv s.chans ch = some (res, chans1)) :
    ServerGroupMeta_select E s ch false =
      some ({ ErrCode := .NO_ERR, LeaderId := 0, ServerGroupMetas := res.ServerGroupMetas,
              BucketOpRes := res.BucketOpRes }, { s with chans := chans1 }) := by
  simp [ServerGroupMeta_select, h]

/-- Instance on a leader whose
store fails: the handler proposes `leaveReq` at index 1 and registers channel
0, the apply loop delivers a response with APPLY_LEAVE_TODO_TO_STM_ERR on that
channel, and the handler returns NO_ERR. -/
theorem ServerGroupMeta_select_overwrites_ErrCode_witness :
    (ServerGroupMeta_propose nodeEnv brokenStoreLeader leaveReq).1 = .waiting 1 0 ∧
      ApplingToSTM_command nodeEnv ""
          (ServerGroupMeta_propose nodeEnv brokenStoreLeader leaveReq).2 (commandMsg leaveReq 1) =
        .iterated brokenStoreLeaderAfterLeave
          (some { ErrCode := .APPLY_LEAVE_TODO_TO_STM_ERR, LeaderId := 0,
                  ServerGroupMetas := none, BucketOpRes := none }) ∧
      ServerGroupMeta_select nodeEnv brokenStoreLeaderAfterLeave 0 false =
        some ({ ErrCode := .NO_ERR, LeaderId := 0, ServerGroupMetas := none, BucketOpRes := none },
              { brokenStoreLeaderAfterLeave with chans := [none] }) :=
  ⟨by decide, by decide,
    ServerGroupMeta_select_overwrites_ErrCode nodeEnv brokenStoreLeaderAfterLeave 0
      { ErrCode := .APPLY_LEAVE_TODO_TO_STM_ERR, LeaderId := 0, ServerGroupMetas := none,
        BucketOpRes := none } [none] (by decide)⟩

/-- C4 (the code departs from it): for the three catalog mutations the response
built by the apply step carries NO_ERR whatever the store call returned, because
the assignment of NO_ERR follows the conditional assignment of the error code. -/
theorem catalog_mutation_response_is_NO_ERR (E : Env Raft Store Topo) (uuid : String)
    (s : MetaServer Raft Store Topo) (m : ApplyMsg) (resp : ServerGroupMetaConfigResponse)
    (hop : (E.DecodeServerGroupMetaRequest m.Command).OpType = .OP_OSS_BUCKET_ADD ∨
      (E.DecodeServerGroupMetaRequest m.Command).OpType = .OP_OSS_BUCKET_DEL ∨
      (E.DecodeServerGroupMetaRequest m.Command).OpType = .OP_OSS_OBJECT_PUT)
    (h : (ApplingToSTM_command E uuid s m).response? = some resp) :
    resp.ErrCode = .NO_ERR := by
  rw [command_response] at h
  unfold applyOp at h
  dsimp only at h
  rcases hop with hop | hop | hop <;> rw [hop] at h <;> dsimp only at h <;>
    (repeat' split at h) <;> simp [Except.toOption] at h <;> subst h <;> rfl

/-- Instance on a node whose store
fails: `Put` returns an error for the bucket row and the response carries
NO_ERR. -/
theorem catalog_mutation_response_is_NO_ERR_witness :
    (nodeEnv.Put brokenStoreNode.metaEng (nodeEnv.EncodeBucketKey "id-a")
        (nodeEnv.EncodeBucket { BucketId := "id-a", BucketName := "photos" })).1 =
        some "put: i/o failure" ∧
      (ApplingToSTM_command nodeEnv "id-a" brokenStoreNode (commandMsg addBucketReq 1)).response? =
        some { ErrCode := .NO_ERR, LeaderId := 0, ServerGroupMetas := none, BucketOpRes := none } ∧
      ({ ErrCode := .NO_ERR, LeaderId := 0, ServerGroupMetas := none, BucketOpRes := none } :
        ServerGroupMetaConfigResponse).ErrCode = .NO_ERR :=
  ⟨by decide, by decide,
    catalog_mutation_response_is_NO_ERR nodeEnv "id-a" brokenStoreNode (commandMsg addBucketReq 1)
      _ (Or.inl (by decide)) (by decide)⟩

/-- C5: when `Propose` reports that the node is not the leader, `ServerGroupMeta`
returns, without entering the `select`, the response with WRONG_LEADER_ERR and
the leader id given by the Raft core's `GetLeaderId`. The state it leaves is
the one it started from with only the Raft core passed through `Propose`:
`notifyChans`, the channels, `lastApplied`, `confStm`, the metadata store and
the topology state are unchanged, and no channel is registered. -/
theorem ServerGroupMeta_wrong_leader (E : Env Raft Store Topo)
    (s : MetaServer Raft Store Topo) (req : ServerGroupMetaConfigRequest) (timedOut : Bool)
    (h : (E.Propose s.rf (E.EncodeServerGroupMetaRequest req)).1.2.2 = false) :
    ServerGroupMeta E s req timedOut =
        some ({ ErrCode := .WRONG_LEADER_ERR,
                LeaderId := E.GetLeaderId (E.Propose s.rf (E.EncodeServerGroupMetaRequest req)).2,
                ServerGroupMetas := none, BucketOpRes := none },
              { rf := (E.Propose s.rf (E.EncodeServerGroupMetaRequest req)).2,
                applyCh := s.applyCh, notifyChans := s.notifyChans, chans := s.chans,
                metaEng := s.metaEng, stm := s.stm, confStm := s.confStm,
                stopApplyCh := s.stopApplyCh, lastApplied := s.lastApplied }) ∧
      (ServerGroupMeta_propose E s req).1 =
        .returned { ErrCode := .WRONG_LEADER_ERR,
                    LeaderId :=
                      E.GetLeaderId (E.Propose s.rf (E.EncodeServerGroupMetaRequest req)).2,
                    ServerGroupMetas := none, BucketOpRes := none } := by
  constructor
  · simp [ServerGroupMeta, ServerGroupMeta_propose, ServerGroupMeta_submit, h]
  · simp [ServerGroupMeta_propose, ServerGroupMeta_submit, h]

/-- Instance on a fresh follower that knows node 2 as the leader: the call
returns WRONG_LEADER_ERR with leader id 2 and leaves the node as it was. -/
theorem ServerGroupMeta_wrong_leader_witness :
    (nodeEnv.Propose freshNode.rf (nodeEnv.EncodeServerGroupMetaRequest queryReq)).1.2.2 = false ∧
      ServerGroupMeta nodeEnv freshNode queryReq false =
        some ({ ErrCode := .WRONG_LEADER_ERR, LeaderId := 2, ServerGroupMetas := none,
                BucketOpRes := none }, freshNode) :=
  ⟨by decide, (ServerGroupMeta_wrong_leader nodeEnv freshNode queryReq false (by decide)).1⟩

/-- C6 (the code departs from it): `StopAppling` closes `applyCh` and leaves
`stopApplyCh` open; the next pass of the apply loop then receives the nil
message from the closed channel and panics on `appliedMsg.CommandValid`, so
the loop does not return through `case <-done`. -/
theorem StopAppling_makes_loop_panic (E : Env Raft Store Topo) (uuid : String) (pickDone : Bool)
    (s : MetaServer Raft Store Topo) (incoming : Option ApplyMsg)
    (hopen : s.applyCh.closed = false) (hdone : s.stopApplyCh.closed = false) :
    StopAppling s = .ok { s with applyCh := { closed := true } } ∧
      ApplingToSTM_iter E uuid pickDone { s with applyCh := { closed := true } } incoming =
        .panicked "nil pointer dereference: appliedMsg" := by
  constructor
  · simp [StopAppling, hopen]
  · simp [ApplingToSTM_iter, hdone]

/-- Instance on a fresh node. -/
theorem StopAppling_makes_loop_panic_witness :
    freshNode.applyCh.closed = false ∧ freshNode.stopApplyCh.closed = false ∧
      ApplingToSTM_iter nodeEnv "" false { freshNode with applyCh := { closed := true } } none =
        .panicked "nil pointer dereference: appliedMsg" :=
  ⟨by decide, by decide,
    (StopAppling_makes_loop_panic nodeEnv "" false freshNode none (by decide) (by decide)).2⟩

/-- C8 (as amended): for a snapshot-install message taken from an open
`applyCh`, the pass completes without routing a response (`notifyChans` and the
channels are unchanged). If `CondInstallSnapshot` accepts, `lastApplied` is the
snapshot index and `confStm` is the map decoded from the snapshot bytes when
these are non-nil, and unchanged when they are nil; if it rejects, `confStm`
and `lastApplied` are unchanged. -/
theorem ApplingToSTM_snapshot_install (E : Env Raft Store Topo) (uuid : String)
    (s : MetaServer Raft Store Topo) (m : ApplyMsg)
    (hc : m.CommandValid = false) (hs : m.SnapshotValid = true)
    (hopen : s.applyCh.closed = false) :
    ApplingToSTM_iter E uuid false s (some m) = .iterated (ApplingToSTM_snapshot E s m) none ∧
      (ApplingToSTM_snapshot E s m).notifyChans = s.notifyChans ∧
      (ApplingToSTM_snapshot E s m).chans = s.chans ∧
      ((E.CondInstallSnapshot s.rf m.SnapshotTerm m.SnapshotIndex m.Snapshot).1 = true →
        (ApplingToSTM_snapshot E s m).lastApplied = m.SnapshotIndex ∧
        (ApplingToSTM_snapshot E s m).confStm = (match m.Snapshot with
          | some b => (E.gobDecode b).1
          | none => s.confStm)) ∧
      ((E.CondInstallSnapshot s.rf m.SnapshotTerm m.SnapshotIndex m.Snapshot).1 = false →
        (ApplingToSTM_snapshot E s m).lastApplied = s.lastApplied ∧
        (ApplingToSTM_snapshot E s m).confStm = s.confStm) := by
  refine ⟨?_, ?_, ?_, ?_, ?_⟩
  · simp [ApplingToSTM_iter, hopen, hc, hs]
  · unfold ApplingToSTM_snapshot restoreSnapshot
    dsimp only
    split <;> (try split) <;> rfl
  · unfold ApplingToSTM_snapshot restoreSnapshot
    dsimp only
    split <;> (try split) <;> rfl
  · intro hacc
    unfold ApplingToSTM_snapshot restoreSnapshot
    dsimp only
    rw [if_pos hacc]
    cases m.Snapshot <;> exact ⟨rfl, rfl⟩
  · intro hrej
    unfold ApplingToSTM_snapshot
    dsimp only
    rw [hrej]
    exact ⟨rfl, rfl⟩

/-- Instance on a node with a non-empty `confStm` and an accepted snapshot that
carries the map with the single entry `("a", "b")`. -/
theorem ApplingToSTM_snapshot_install_witness :
    (nodeEnv.CondInstallSnapshot restoredNode.rf snapshotMsg.SnapshotTerm
        snapshotMsg.SnapshotIndex snapshotMsg.Snapshot).1 = true ∧
      (ApplingToSTM_snapshot nodeEnv restoredNode snapshotMsg).lastApplied = 5 ∧
      (ApplingToSTM_snapshot nodeEnv restoredNode snapshotMsg).confStm = some [("a", "b")] :=
  ⟨by decide,
    (ApplingToSTM_snapshot_install nodeEnv "" restoredNode snapshotMsg (by decide) (by decide)
      (by decide)).2.2.2.1 (by decide)⟩

/-- C8 (as stated) fails: a snapshot-install message with nil snapshot bytes is
accepted by `CondInstallSnapshot`; `lastApplied` becomes the snapshot index 5,
and `confStm` keeps its entry `("k", "v")`, which is not what decoding the
(empty) snapshot bytes gives. -/
theorem accepted_nil_snapshot_keeps_confStm :
    nilSnapshotMsg.CommandValid = false ∧ nilSnapshotMsg.SnapshotValid = true ∧
      (nodeEnv.CondInstallSnapshot restoredNode.rf nilSnapshotMsg.SnapshotTerm
        nilSnapshotMsg.SnapshotIndex nilSnapshotMsg.Snapshot).1 = true ∧
      (ApplingToSTM_iter nodeEnv "" false restoredNode (some nilSnapshotMsg)).state?.map
          (fun t => (t.lastApplied, t.confStm)) = some (5, some [("k", "v")]) ∧
      (nodeEnv.gobDecode (nilSnapshotMsg.Snapshot.getD [])).1 ≠ some [("k", "v")] := by
  decide

/-- The query branch of the `switch` builds its response from `Query` alone. -/
theorem command_response_query (E : Env Raft Store Topo) (uuid : String)
    (s : MetaServer Raft Store Topo) (m : ApplyMsg)
    (hq : (E.DecodeServerGroupMetaRequest m.Command).OpType = .OP_SERVER_GROUP_QUERY) :
    (ApplingToSTM_command E uuid s m).response? =
      some { ErrCode :=
               if (E.Query s.stm s.metaEng
                    (E.DecodeServerGroupMetaRequest m.Command).ConfigVersion).2.isSome
               then .APPLY_QUERY_TOPO_CONF_ERR else E.zeroErrCode,
             LeaderId := 0,
             ServerGroupMetas := some
               { ConfigVersion := (E.Query s.stm s.metaEng
                    (E.DecodeServerGroupMetaRequest m.Command).ConfigVersion).1.Version,
                 ServerGroups := (E.Query s.stm s.metaEng
                    (E.DecodeServerGroupMetaRequest m.Command).ConfigVersion).1.ServerGroups.map
                      (fun e => (e.1, ",".intercalate e.2)),
                 Slots := (E.Query s.stm s.metaEng
                    (E.DecodeServerGroupMetaRequest m.Command).ConfigVersion).1.Slots },
             BucketOpRes := none } := by
  rw [command_response]
  unfold applyOp
  rw [hq]
  dsimp only
  split <;> simp [Except.toOption, *]

/-- C7 (as amended): the snapshot carries `confStm` and nothing of the topology.
`taskSnapshot` hands the Raft core the gob encoding of `confStm`;
`restoreSnapshot` on those bytes, on any node, sets `confStm` to the map decoded
from them and leaves that node's metadata store and topology state as they
were. So the response built for an OP_SERVER_GROUP_QUERY command (every
version) after the restore is the restoring node's own response from before
the restore; it is identical to the response on the snapshotted state when the
restoring node has the same metadata store and topology state (as the
snapshotted node itself has). -/
theorem query_after_restoreSnapshot (E : Env Raft Store Topo) (uuid : String)
    (s t : MetaServer Raft Store Topo) (index : Int) (m : ApplyMsg)
    (hq : (E.DecodeServerGroupMetaRequest m.Command).OpType = .OP_SERVER_GROUP_QUERY) :
    taskSnapshot E s index = { s with rf := E.Snapshot s.rf index (E.gobEncode s.confStm) } ∧
    (restoreSnapshot E t (E.gobEncode s.confStm)).confStm =
      (match E.gobEncode s.confStm with
        | some b => (E.gobDecode b).1
        | none => t.confStm) ∧
    (restoreSnapshot E t (E.gobEncode s.confStm)).metaEng = t.metaEng ∧
    (restoreSnapshot E t (E.gobEncode s.confStm)).stm = t.stm ∧
    (ApplingToSTM_command E uuid (restoreSnapshot E t (E.gobEncode s.confStm)) m).response? =
      (ApplingToSTM_command E uuid t m).response? ∧
    (ApplingToSTM_command E uuid t m).response? =
      some { ErrCode :=
               if (E.Query t.stm t.metaEng
                    (E.DecodeServerGroupMetaRequest m.Command).ConfigVersion).2.isSome
               then .APPLY_QUERY_TOPO_CONF_ERR else E.zeroErrCode,
             LeaderId := 0,
             ServerGroupMetas := some
               { ConfigVersion := (E.Query t.stm t.metaEng
                    (E.DecodeServerGroupMetaRequest m.Command).ConfigVersion).1.Version,
                 ServerGroups := (E.Query t.stm t.metaEng
                    (E.DecodeServerGroupMetaRequest m.Command).ConfigVersion).1.ServerGroups.map
                      (fun e => (e.1, ",".intercalate e.2)),
                 Slots := (E.Query t.stm t.metaEng
                    (E.DecodeServerGroupMetaRequest m.Command).ConfigVersion).1.Slots },
             BucketOpRes := none } ∧
    (t.metaEng = s.metaEng → t.stm = s.stm →
      (ApplingToSTM_command E uuid (restoreSnapshot E t (E.gobEncode s.confStm)) m).response? =
        (ApplingToSTM_command E uuid s m).response?) := by
  have hm : (restoreSnapshot E t (E.gobEncode s.confStm)).metaEng = t.metaEng := by
    unfold restoreSnapshot
    split <;> rfl
  have hs : (restoreSnapshot E t (E.gobEncode s.confStm)).stm = t.stm := by
    unfold restoreSnapshot
    split <;> rfl
  refine ⟨rfl, ?_, hm, hs, ?_, command_response_query E uuid t m hq, ?_⟩
  · unfold restoreSnapshot
    cases E.gobEncode s.confStm <;> rfl
  · rw [command_response, command_response]
    exact applyOp_resp_congr E uuid uuid _ t _ hm hs
  · intro hE hT
    rw [command_response, command_response]
    exact applyOp_resp_congr E uuid uuid _ s _ (hm.trans hE) (hs.trans hT)

/-- Instance on a node whose topology has version 1 and whose `confStm` is
non-empty: the node takes a snapshot at index 1 and restores the bytes it
produced; the query of version 1 is answered as before the snapshot. -/
theorem query_after_restoreSnapshot_witness :
    (nodeEnv.DecodeServerGroupMetaRequest (commandMsg queryV1Req 2).Command).OpType =
        .OP_SERVER_GROUP_QUERY ∧
      (ApplingToSTM_command nodeEnv "" joinedNode (commandMsg queryV1Req 2)).response? =
        some joinedQueryResponse ∧
      (restoreSnapshot nodeEnv (taskSnapshot nodeEnv joinedNode 1)
        (nodeEnv.gobEncode joinedNode.confStm)).confStm = some [("k", "v")] ∧
      (ApplingToSTM_command nodeEnv ""
          (restoreSnapshot nodeEnv (taskSnapshot nodeEnv joinedNode 1)
            (nodeEnv.gobEncode joinedNode.confStm)) (commandMsg queryV1Req 2)).response? =
        (ApplingToSTM_command nodeEnv "" joinedNode (commandMsg queryV1Req 2)).response? :=
  ⟨by decide, by decide, by decide,
    (query_after_restoreSnapshot nodeEnv "" joinedNode (taskSnapshot nodeEnv joinedNode 1) 1
      (commandMsg queryV1Req 2) (by decide)).2.2.2.2.2.2 rfl rfl⟩

/-- C7 (as stated) fails: a node whose topology has version 1 takes a snapshot
at index 1; `taskSnapshot` hands the Raft core the gob bytes of its `confStm`.
A fresh node on which `restoreSnapshot` is called with these bytes receives the
`confStm` entry, and answers the query of version 1 with the default config of
version 0, not with the response built before the snapshot was taken. -/
theorem snapshot_restored_elsewhere_loses_topology :
    (taskSnapshot nodeEnv joinedNode 1).rf.snapshot = nodeEnv.gobEncode joinedNode.confStm ∧
      (ApplingToSTM_command nodeEnv "" joinedNode (commandMsg queryV1Req 2)).response? =
        some joinedQueryResponse ∧
      (restoreSnapshot nodeEnv freshNode (nodeEnv.gobEncode joinedNode.confStm)).confStm =
        some [("k", "v")] ∧
      (ApplingToSTM_command nodeEnv ""
          (restoreSnapshot nodeEnv freshNode (nodeEnv.gobEncode joinedNode.confStm))
          (commandMsg queryV1Req 2)).response? = some freshQueryResponse ∧
      joinedQueryResponse ≠ freshQueryResponse := by
  decide

/-- A leader's `Propose` makes the handler go on with the index returned. -/
theorem ServerGroupMeta_submit_leader (E : Env Raft Store Topo) (s : MetaServer Raft Store Topo)
    (req : ServerGroupMetaConfigRequest) (i t : Int) (rf1 : Raft)
    (hP : E.Propose s.rf (E.EncodeServerGroupMetaRequest req) = ((i, t, true), rf1)) :
    ServerGroupMeta_submit E s req = (.inr i, { s with rf := rf1 }) := by
  simp [ServerGroupMeta_submit, hP]

/-- When the `switch` builds a response, the command branch routes it from a
state with the `notifyChans`, channels, store and topology the `switch` left. -/
theorem command_route (E : Env Raft Store Topo) (uuid : String)
    (s s1 : MetaServer Raft Store Topo) (m : ApplyMsg) (resp : ServerGroupMetaConfigResponse)
    (hop : applyOp E uuid s (E.DecodeServerGroupMetaRequest m.Command) = .ok (resp, s1)) :
    ∃ s3, ApplingToSTM_command E uuid s m = routeResponse s3 m.CommandIndex resp ∧
      s3.notifyChans = s.notifyChans ∧ s3.chans = s.chans := by
  obtain ⟨_, _, hn, hch, _⟩ := applyOp_frame E uuid s s1 _ resp hop
  refine ⟨(if E.GetLogCount s1.rf > 20 then
        taskSnapshot E { s1 with lastApplied := m.CommandIndex } m.CommandIndex
       else { s1 with lastApplied := m.CommandIndex }), ?_, ?_, ?_⟩
  · simp only [ApplingToSTM_command, hop]
  · split <;> simp [taskSnapshot, hn]
  · split <;> simp [taskSnapshot, hch]

/-- The `switch` succeeds with the same response on two states with the same
store and topology. -/
theorem applyOp_ok_congr (E : Env Raft Store Topo) (uuid : String)
    (a b a1 : MetaServer Raft Store Topo) (req : ServerGroupMetaConfigRequest)
    (resp : ServerGroupMetaConfigResponse)
    (hE : a.metaEng = b.metaEng) (hT : a.stm = b.stm)
    (h : applyOp E uuid a req = .ok (resp, a1)) :
    ∃ b1, applyOp E uuid b req = .ok (resp, b1) := by
  have hc := applyOp_resp_congr E uuid uuid a b req hE hT
  rw [h] at hc
  cases hb : applyOp E uuid b req with
  | error e => rw [hb] at hc; simp [Except.toOption] at hc
  | ok p =>
    obtain ⟨r, b1⟩ := p
    rw [hb] at hc
    simp only [Except.toOption, Option.map, Option.some.injEq] at hc
    exact ⟨b1, by rw [hc]⟩

/-- Routing on an index under which no response is buffered completes: the
index is then mapped to the channel `getRespNotifyChan` gives for it, and a
receive on that channel yields the routed response. -/
theorem routeResponse_free (x : MetaServer Raft Store Topo) (i : Int)
    (resp : ServerGroupMetaConfigResponse)
    (hfree : x.notifyChans.lookup i = none ∨
      ∃ ch, x.notifyChans.lookup i = some ch ∧ x.chans[ch]? = some none) :
    ∃ x1 chans1, routeResponse x i resp = .iterated x1 (some resp) ∧
      x1.notifyChans.lookup i = some (getRespNotifyChan x i).1 ∧
      chanRecv x1.chans (getRespNotifyChan x i).1 = some (resp, chans1) := by
  rcases hfree with h | ⟨ch, h, hempty⟩
  · refine ⟨{ x with chans := x.chans ++ [some resp],
                     notifyChans := mapSet x.notifyChans i x.chans.length },
      x.chans ++ [none], ?_, ?_, ?_⟩
    · simp only [routeResponse, getRespNotifyChan, h, chanSend_fresh]
    · simp [getRespNotifyChan, h, lookup_mapSet_self]
    · simp only [getRespNotifyChan, h]
      exact chanRecv_fresh _ _
  · have hlt : ch < x.chans.length := by
      by_contra hge
      rw [List.getElem?_eq_none (Nat.le_of_not_lt hge)] at hempty
      cases hempty
    refine ⟨{ x with chans := x.chans.set ch (some resp) }, x.chans.set ch none, ?_, ?_, ?_⟩
    · simp only [routeResponse, getRespNotifyChan, h, chanSend_empty _ _ _ hempty]
    · simp [getRespNotifyChan, h]
    · simp only [getRespNotifyChan, h]
      exact chanRecv_set _ _ _ hlt

/-- After the handler registered on an index under which no response was
buffered, the index is mapped to the channel it holds and the channel is
empty. -/
theorem register_free (x : MetaServer Raft Store Topo) (i : Int)
    (hfree : x.notifyChans.lookup i = none ∨
      ∃ ch, x.notifyChans.lookup i = some ch ∧ x.chans[ch]? = some none) :
    (ServerGroupMeta_register x i).2.notifyChans.lookup i = some (ServerGroupMeta_register x i).1 ∧
      (ServerGroupMeta_register x i).2.chans[(ServerGroupMeta_register x i).1]? = some none ∧
      (ServerGroupMeta_register x i).2.metaEng = x.metaEng ∧
      (ServerGroupMeta_register x i).2.stm = x.stm := by
  rcases hfree with h | ⟨ch, h, hempty⟩
  · simp [ServerGroupMeta_register, getRespNotifyChan, h, lookup_mapSet_self]
  · simp [ServerGroupMeta_register, getRespNotifyChan, h, hempty]

/-- The channel `getRespNotifyChan` gives depends on `notifyChans` and the
channels only. -/
theorem getRespNotifyChan_fst_congr (x y : MetaServer Raft Store Topo) (i : Int)
    (hn : x.notifyChans = y.notifyChans) (hc : x.chans = y.chans) :
    (getRespNotifyChan x i).1 = (getRespNotifyChan y i).1 := by
  unfold getRespNotifyChan
  rw [hn, hc]
  cases y.notifyChans.lookup i <;> rfl

/-- C9: register-or-reuse is order independent. `getRespNotifyChan` makes an
empty single-slot channel under key `i` only when the key is absent, returns
the stored channel otherwise, and leaves every other key unchanged. Let
`Propose` return log index `i` to a leader, let no response be buffered under
`i` yet, and let the apply loop build the response `resp` for the committed
command at index `i`. If the handler obtains its channel first
(`ServerGroupMeta_propose`) and the apply loop processes the command afterwards,
or if the apply loop processes the command right after `Propose` and the
handler obtains its channel afterwards, then in both orders the handler holds
the same channel, the one stored under key `i`, its receive on it yields exactly
`resp`, and its `select` (without timeout) returns the payload of `resp`. -/
theorem ServerGroupMeta_meets_ApplingToSTM (E : Env Raft Store Topo) (uuid : String)
    (s s1 : MetaServer Raft Store Topo) (req : ServerGroupMetaConfigRequest) (m : ApplyMsg)
    (i t : Int) (rf1 : Raft) (resp : ServerGroupMetaConfigResponse)
    (hP : E.Propose s.rf (E.EncodeServerGroupMetaRequest req) = ((i, t, true), rf1))
    (hm : m.CommandIndex = i)
    (hfree : s.notifyChans.lookup i = none ∨
      ∃ ch, s.notifyChans.lookup i = some ch ∧ s.chans[ch]? = some none)
    (hop : applyOp E uuid { s with rf := rf1 } (E.DecodeServerGroupMetaRequest m.Command) =
      .ok (resp, s1)) :
    (s.notifyChans.lookup i = none →
      getRespNotifyChan s i =
        (s.chans.length,
          { s with chans := s.chans ++ [none],
                   notifyChans := mapSet s.notifyChans i s.chans.length }) ∧
      (getRespNotifyChan s i).2.chans[(getRespNotifyChan s i).1]? = some none) ∧
    (∀ ch, s.notifyChans.lookup i = some ch → getRespNotifyChan s i = (ch, s)) ∧
    (∀ j, j ≠ i → (getRespNotifyChan s i).2.notifyChans.lookup j = s.notifyChans.lookup j) ∧
    (∃ ch sA sA2 chansA,
      ch = (getRespNotifyChan s i).1 ∧
      ServerGroupMeta_propose E s req = (.waiting i ch, sA) ∧
      ApplingToSTM_command E uuid sA m = .iterated sA2 (some resp) ∧
      sA2.notifyChans.lookup i = some ch ∧
      chanRecv sA2.chans ch = some (resp, chansA) ∧
      ServerGroupMeta_select E sA2 ch false =
        some ({ ErrCode := .NO_ERR, LeaderId := 0, ServerGroupMetas := resp.ServerGroupMetas,
                BucketOpRes := resp.BucketOpRes }, { sA2 with chans := chansA })) ∧
    (∃ ch sB sB1 chansB,
      ch = (getRespNotifyChan s i).1 ∧
      ServerGroupMeta_submit E s req = (.inr i, sB) ∧
      ApplingToSTM_command E uuid sB m = .iterated sB1 (some resp) ∧
      ServerGroupMeta_register sB1 i = (ch, sB1) ∧
      sB1.notifyChans.lookup i = some ch ∧
      chanRecv sB1.chans ch = some (resp, chansB) ∧
      ServerGroupMeta_select E sB1 ch false =
        some ({ ErrCode := .NO_ERR, LeaderId := 0, ServerGroupMetas := resp.ServerGroupMetas,
                BucketOpRes := resp.BucketOpRes }, { sB1 with chans := chansB })) := by
  have hsub := ServerGroupMeta_submit_leader E s req i t rf1 hP
  have hfree0 : ({ s with rf := rf1 } : MetaServer Raft Store Topo).notifyChans.lookup i = none ∨
      ∃ ch, ({ s with rf := rf1 } : MetaServer Raft Store Topo).notifyChans.lookup i = some ch ∧
        ({ s with rf := rf1 } : MetaServer Raft Store Topo).chans[ch]? = some none := hfree
  refine ⟨?_, ?_, ?_, ?_, ?_⟩
  · intro h
    simp [getRespNotifyChan, h]
  · intro ch h
    simp [getRespNotifyChan, h]
  · intro j hj
    cases h : s.notifyChans.lookup i with
    | none => simp [getRespNotifyChan, h, lookup_mapSet_ne _ _ _ _ hj]
    | some ch => simp [getRespNotifyChan, h]
  · -- the handler registers first
    obtain ⟨hl, he, hE, hT⟩ := register_free { s with rf := rf1 } i hfree0
    obtain ⟨a1, hopA⟩ := applyOp_ok_congr E uuid { s with rf := rf1 }
      (ServerGroupMeta_register { s with rf := rf1 } i).2 s1 _ resp hE.symm hT.symm hop
    obtain ⟨s3, hcmd, hn3, hc3⟩ := command_route E uuid _ a1 m resp hopA
    have hfree3 : s3.notifyChans.lookup i = none ∨
        ∃ ch, s3.notifyChans.lookup i = some ch ∧ s3.chans[ch]? = some none :=
      Or.inr ⟨_, by rw [hn3]; exact hl, by rw [hc3]; exact he⟩
    obtain ⟨x1, chans1, hroute, hlk, hrecv⟩ := routeResponse_free s3 i resp hfree3
    have hch : (getRespNotifyChan s3 i).1 = (ServerGroupMeta_register { s with rf := rf1 } i).1 := by
      simp only [getRespNotifyChan, hn3, hl]
    rw [hch] at hlk hrecv
    refine ⟨(ServerGroupMeta_register { s with rf := rf1 } i).1,
      (ServerGroupMeta_register { s with rf := rf1 } i).2, x1, chans1, ?_, ?_, ?_, hlk, hrecv, ?_⟩
    · exact getRespNotifyChan_fst_congr _ s i rfl rfl
    · simp only [ServerGroupMeta_propose, hsub]
    · rw [hcmd, hm]; exact hroute
    · simp [ServerGroupMeta_select, hrecv]
  · -- the apply loop routes first
    obtain ⟨s3, hcmd, hn3, hc3⟩ := command_route E uuid _ s1 m resp hop
    have hfree3 : s3.notifyChans.lookup i = none ∨
        ∃ ch, s3.notifyChans.lookup i = some ch ∧ s3.chans[ch]? = some none := by
      rw [hn3, hc3]; exact hfree0
    obtain ⟨x1, chans1, hroute, hlk, hrecv⟩ := routeResponse_free s3 i resp hfree3
    refine ⟨(getRespNotifyChan s3 i).1, { s with rf := rf1 }, x1, chans1, ?_, hsub, ?_, ?_, hlk,
      hrecv, ?_⟩
    · exact getRespNotifyChan_fst_congr s3 s i hn3 hc3
    · rw [hcmd, hm]; exact hroute
    · simp only [ServerGroupMeta_register, getRespNotifyChan, hlk]
    · simp [ServerGroupMeta_select, hrecv]

/-- Instance on a leader that has applied nothing, for a topology query that
`Propose` places at index 1: the handler returns the response built by the
apply loop when it registers before the loop processes the command and when it
registers after. -/
theorem ServerGroupMeta_meets_ApplingToSTM_witness :
    nodeEnv.Propose leaderNode.rf (nodeEnv.EncodeServerGroupMetaRequest queryReq) =
        ((1, 1, true),
          { leaderNode.rf with log := [nodeEnv.EncodeServerGroupMetaRequest queryReq] }) ∧
      leaderNode.notifyChans.lookup 1 = none ∧
      ((ApplingToSTM_command nodeEnv "" (ServerGroupMeta_propose nodeEnv leaderNode queryReq).2
          (commandMsg queryReq 1)).state?.bind
        (fun x => ServerGroupMeta_select nodeEnv x 0 false)).map Prod.fst =
        some freshQueryResponse ∧
      ((ApplingToSTM_command nodeEnv "" (ServerGroupMeta_submit nodeEnv leaderNode queryReq).2
          (commandMsg queryReq 1)).state?.bind
        (fun x => ServerGroupMeta_select nodeEnv (ServerGroupMeta_register x 1).2
          (ServerGroupMeta_register x 1).1 false)).map Prod.fst =
        some freshQueryResponse := by
  obtain ⟨_, _, _, hA, hB⟩ := ServerGroupMeta_meets_ApplingToSTM nodeEnv "" leaderNode
    { leaderNode with
      rf := { leaderNode.rf with log := [nodeEnv.EncodeServerGroupMetaRequest queryReq] } }
    queryReq (commandMsg queryReq 1) 1 1
    { leaderNode.rf with log := [nodeEnv.EncodeServerGroupMetaRequest queryReq] }
    freshQueryResponse (by decide) (by decide) (Or.inl (by decide)) rfl
  obtain ⟨chA, sA, sA2, chansA, hcA, hpA, hcmdA, _, _, hselA⟩ := hA
  obtain ⟨chB, sB, sB1, chansB, _, hsB, hcmdB, hregB, _, _, hselB⟩ := hB
  have hchA : chA = 0 := by rw [hcA]; decide
  have hsA : (ServerGroupMeta_propose nodeEnv leaderNode queryReq).2 = sA := by rw [hpA]
  have hsB2 : (ServerGroupMeta_submit nodeEnv leaderNode queryReq).2 = sB := by rw [hsB]
  refine ⟨by decide, by decide, ?_, ?_⟩
  · rw [hsA, hcmdA]
    simp only [LoopResult.state?, Option.bind, ← hchA, hselA, Option.map]
    rfl
  · rw [hsB2, hcmdB]
    simp only [LoopResult.state?, Option.bind, hregB, hselB, Option.map]
    rfl

end Eraft
